import Mathlib

/-!
Verification development for the variable-recovery engine
(`angr/analyses/variable_recovery/engine_base.py`).

The engine's data model and per-statement operations are shallowly embedded
as executable Lean definitions: the mutable analysis state becomes an
explicit `VRState` record threaded through each operation, Python exceptions
become `Option` results (with the partially mutated state preserved, matching
the in-place mutation semantics of the original), and the external
collaborators that the engine consumes (claripy value tests, the region
stores, the variable manager, the type-variable store) are modelled from the
specification's contracts where their code is not part of this repository.
-/

namespace VR

/-- Offset / arithmetic expressions flowing through the engine.  This models
the union of values the Python code passes around as offsets: `None`
(`noneE`), plain integers (`intE`), opaque non-concrete sub-expressions
(`opaq`), and `ArithmeticExpression` nodes with two operands (`add`, `sub`). -/
inductive AExpr
  | noneE
  | intE (n : Int)
  | opaq (ident : Nat)
  | add (a b : AExpr)
  | sub (a b : AExpr)
deriving DecidableEq

/-- Python `x + n` on an offset expression: integer addition when concrete,
a symbolic node otherwise. -/
def AExpr.addInt (e : AExpr) (n : Int) : AExpr :=
  match e with
  | .intE m => .intE (m + n)
  | e => .add e (.intE n)

/-- Python `x - y` on offset expressions: integer subtraction when both are
concrete, a symbolic node otherwise. -/
def AExpr.subE (a b : AExpr) : AExpr :=
  match a, b with
  | .intE m, .intE n => .intE (m - n)
  | a, b => .sub a b

/-- `type(e) is int` in the Python code. -/
def AExpr.isIntE : AExpr → Bool
  | .intE _ => true
  | _ => false

/-- Inject an `Optional` offset (`None` becomes `noneE`). -/
def AExpr.ofOpt : Option AExpr → AExpr
  | none => .noneE
  | some e => e

/-- The variable sorts used as string keys by the variable manager. -/
inductive VarSort
  | stack
  | register
  | memory
  | glob
deriving DecidableEq

/-- Recovered variables (`SimStackVariable`, `SimRegisterVariable`,
`SimMemoryVariable`).  The `base='bp'` tag of stack variables is a constant in
the engine and is left implicit. -/
inductive SimVariable
  | stackV (offset : AExpr) (size : Nat) (ident : Option Nat) (region : Nat)
  | regV (offset : Int) (size : Nat) (ident : Option Nat) (region : Nat)
  | memV (addr : Int) (size : Nat) (ident : Option Nat)
deriving DecidableEq

/-- `variable.size` -/
def SimVariable.size : SimVariable → Nat
  | .stackV _ s _ _ => s
  | .regV _ s _ _ => s
  | .memV _ s _ => s

/-- An opaque type-variable handle (`typevars.TypeVariable`). -/
structure TypeVariable where
  ident : Nat
deriving DecidableEq

/-- Labels of derived type variables (`typevars.AddN`, `Load`, `Store`,
`HasField`). -/
inductive TypeLabel
  | addN (n : Int)
  | loadL
  | storeL
  | hasField (bits : Nat) (offset : Int)
deriving DecidableEq

/-- Type variables: either a plain `TypeVariable` or a
`DerivedTypeVariable(type_var, label)`. -/
inductive TypeVar
  | base (v : TypeVariable)
  | derived (typeVar : TypeVar) (label : TypeLabel)
deriving DecidableEq

/-- The operands of a `Subtype` constraint: a type variable or a built-in
type constant (`typeconsts.int_type(bits)`). -/
inductive TypeSort
  | tv (t : TypeVar)
  | intType (bits : Nat)
deriving DecidableEq

/-- Type constraints emitted by the engine (`typevars.Subtype`,
`typevars.Existence`). -/
inductive TypeConstraint
  | subtypeC (sub sup : TypeSort)
  | existenceC (t : TypeVar)
deriving DecidableEq

/-- `True` exactly for `Existence` constraints. -/
def TypeConstraint.isExistence : TypeConstraint → Bool
  | .existenceC _ => true
  | _ => false

/-- The decomposition at the heads of `_store_to_variable` and the pointer
part of `_load`: a derived type variable with an `AddN` label is unpacked
into its base and the offset `n`; anything else keeps offset `0`. -/
def decomposeAddN : TypeVar → TypeVar × Int
  | .derived b (.addN n) => (b, n)
  | t => (t, 0)

/-- The result of stack-offset extraction: the offset value plus the custom
bit-mask when the extraction produced an `(offset, mask)` tuple. -/
structure PotOffset where
  off : AExpr
  mask : Option Nat
deriving DecidableEq

/-- `isinstance(stack_offset, int)` on the raw extraction result: a tuple is
not an `int`, and neither is an `ArithmeticExpression`. -/
def PotOffset.asPyInt (p : PotOffset) : Option Int :=
  match p.mask, p.off with
  | none, .intE n => some n
  | _, _ => none

/-- The closed tagged variant for abstract values: `top` (unknown of known
size), a concrete bit-vector value, or a provably stack-relative address
carrying its extractable offset (`none` when no offset can be extracted). -/
inductive AValKind
  | topK
  | concreteK (n : Int)
  | stackAddrK (soff : Option PotOffset)
deriving DecidableEq

/-- `addr.concrete` -/
def AValKind.isConcrete : AValKind → Bool
  | .concreteK _ => true
  | _ => false

/-- `True` when the value is a stack address whose offset extraction
succeeds. -/
def AValKind.isResolvableStack : AValKind → Bool
  | .stackAddrK (some _) => true
  | _ => false

/-- An abstract value: bit width, kind, and the variable annotations
`(offset, variable)` riding on it. -/
structure AValue where
  bits : Nat
  kind : AValKind
  annots : List (AExpr × SimVariable)
deriving DecidableEq

/-- `RichR`: an abstract value with an optional recovered variable, optional
type variable, and extra constraints (`None` modelled as `[]`). -/
structure RichR where
  data : AValue
  var : Option SimVariable
  typevar : Option TypeVar
  type_constraints : List TypeConstraint
deriving DecidableEq

/-- Append an element to a list unless already present (Python `set.add`,
with insertion iteration order). -/
def addUniq {α : Type} [DecidableEq α] (xs : List α) (x : α) : List α :=
  if x ∈ xs then xs else xs ++ [x]

/-- `MultiValues`: a mapping from byte offset within the accessed window to
the set of abstract values observed there. -/
structure MultiValues where
  values : List (Int × List AValue)
deriving DecidableEq

/-- Merge a set of values at one window offset into a `MultiValues`. -/
def MultiValues.insertVals (m : MultiValues) (off : Int) (vs : List AValue) :
    MultiValues :=
  if (m.values.find? (fun p => p.1 == off)).isSome then
    ⟨m.values.map (fun p => if p.1 == off then (p.1, vs.foldl addUniq p.2) else p)⟩
  else
    ⟨m.values ++ [(off, vs)]⟩

/-- One stored cell of a region store: base address, size in bytes, and the
set of values stored there. -/
structure RCell where
  addr : AExpr
  size : Nat
  vals : List AValue
deriving DecidableEq

/-- Whether a cell intersects the load window `[addr, addr+size)`.  Only
concrete addresses admit genuine interval overlap; other address keys only
hit on exact equality.  Modelled from the spec (§4.1): a load returns
whatever prior stores touch the requested window. -/
def RCell.hits (c : RCell) (addr : AExpr) (size : Nat) : Bool :=
  match c.addr, addr with
  | .intE a, .intE b => decide (a < b + (size : Int)) && decide (b < a + (c.size : Int))
  | ca, cb => ca == cb

/-- Offset of a hit cell within the load window. -/
def RCell.relOff (c : RCell) (addr : AExpr) : Int :=
  match c.addr, addr with
  | .intE a, .intE b => a - b
  | _, _ => 0

/-- A byte-addressed region store (stack, register, or global region).
Modelled from the spec (§4.1, §4.2): `store` anchors a value at a base
address; `load` returns the offset-to-value-set map over the window or a
missing-data failure (`none`) when no prior store touches the window.
Endness parameters of the original are byte-order bookkeeping of the
external memory model and are not represented. -/
structure Region where
  cells : List RCell
deriving DecidableEq

/-- Store a single value anchored at `addr`. -/
def Region.storeVal (r : Region) (addr : AExpr) (v : AValue) (bw : Nat) : Region :=
  ⟨⟨addr, v.bits / bw, [v]⟩ :: r.cells⟩

/-- Size in bytes of a value set being stored. -/
def cellSizeOf (vs : List AValue) (bw : Nat) : Nat :=
  match vs.head? with
  | some v => v.bits / bw
  | none => 0

/-- Store a pre-built `MultiValues` anchored at `addr`. -/
def Region.storeMV (r : Region) (addr : AExpr) (mv : MultiValues) (bw : Nat) : Region :=
  ⟨(mv.values.map (fun p => RCell.mk (addr.addInt p.1) (cellSizeOf p.2 bw) p.2)) ++ r.cells⟩

/-- Load the window `[addr, addr+size)`: `none` is the missing-data failure
(`SimMemoryMissingError`). -/
def Region.load (r : Region) (addr : AExpr) (size : Nat) : Option MultiValues :=
  match r.cells.filter (fun c => c.hits addr size) with
  | [] => none
  | hs => some (hs.foldl (fun m c => m.insertVals (c.relOff addr) c.vals) ⟨[]⟩)

/-- `CodeLocation(block_addr, stmt_idx, ins_addr)`. -/
structure CodeLocation where
  blockAddr : Nat
  stmtIdx : Nat
  insAddr : Nat
deriving DecidableEq

/-- Use/def/reference events recorded through the variable manager
(`read_from`, `write_to`, `reference_at`). -/
inductive VMEvent
  | readE (v : SimVariable) (off : AExpr) (loc : CodeLocation) (atom : Option Nat)
  | writeE (v : SimVariable) (off : AExpr) (loc : CodeLocation) (atom : Option Nat)
  | refE (v : SimVariable) (off : AExpr) (loc : CodeLocation) (atom : Option Nat)
deriving DecidableEq

/-- `True` exactly for read events. -/
def VMEvent.isRead : VMEvent → Bool
  | .readE _ _ _ _ => true
  | _ => false

/-- One variable-manager catalog (per-function, or the global one).
Modelled from the spec (§4.3): lookup tables are reference-stable inputs,
identifier allocation is a monotone counter per sort, and the use/def
bookkeeping operations append to an event log and never fail. -/
structure FuncVM where
  byStmt : List ((Nat × Nat × VarSort) × List (SimVariable × AExpr))
  byAtom : List ((Nat × Nat × Option Nat) × List (SimVariable × AExpr))
  stackCtr : Nat
  regCtr : Nat
  globCtr : Nat
  vars : List (VarSort × AExpr × SimVariable)
  events : List VMEvent
deriving DecidableEq

/-- `find_variables_by_stmt(block_addr, stmt_idx, sort)`. -/
def FuncVM.findByStmt (vm : FuncVM) (blockAddr stmtIdx : Nat) (srt : VarSort) :
    List (SimVariable × AExpr) :=
  match vm.byStmt.find? (fun p => p.1 == (blockAddr, stmtIdx, srt)) with
  | some p => p.2
  | none => []

/-- `find_variables_by_atom(block_addr, stmt_idx, atom)`. -/
def FuncVM.findByAtom (vm : FuncVM) (blockAddr stmtIdx : Nat) (atom : Option Nat) :
    List (SimVariable × AExpr) :=
  match vm.byAtom.find? (fun p => p.1 == (blockAddr, stmtIdx, atom)) with
  | some p => p.2
  | none => []

/-- `next_variable_ident(sort)`: allocate the next identifier. -/
def FuncVM.nextIdent (vm : FuncVM) (srt : VarSort) : Nat × FuncVM :=
  match srt with
  | .stack => (vm.stackCtr, { vm with stackCtr := vm.stackCtr + 1 })
  | .register => (vm.regCtr, { vm with regCtr := vm.regCtr + 1 })
  | _ => (vm.globCtr, { vm with globCtr := vm.globCtr + 1 })

/-- `set_variable(sort, key, variable)`. -/
def FuncVM.setVar (vm : FuncVM) (srt : VarSort) (key : AExpr) (v : SimVariable) : FuncVM :=
  { vm with vars := vm.vars ++ [(srt, key, v)] }

/-- `add_variable(sort, key, variable)`. -/
def FuncVM.addVar (vm : FuncVM) (srt : VarSort) (key : AExpr) (v : SimVariable) : FuncVM :=
  { vm with vars := vm.vars ++ [(srt, key, v)] }

/-- `read_from(variable, offset, codeloc, atom)`. -/
def FuncVM.readFrom (vm : FuncVM) (v : SimVariable) (off : AExpr) (loc : CodeLocation)
    (atom : Option Nat) : FuncVM :=
  { vm with events := vm.events ++ [VMEvent.readE v off loc atom] }

/-- `write_to(variable, offset, codeloc, atom)`. -/
def FuncVM.writeTo (vm : FuncVM) (v : SimVariable) (off : AExpr) (loc : CodeLocation)
    (atom : Option Nat) : FuncVM :=
  { vm with events := vm.events ++ [VMEvent.writeE v off loc atom] }

/-- `reference_at(variable, offset, codeloc, atom)`. -/
def FuncVM.referenceAt (vm : FuncVM) (v : SimVariable) (off : AExpr) (loc : CodeLocation)
    (atom : Option Nat) : FuncVM :=
  { vm with events := vm.events ++ [VMEvent.refE v off loc atom] }

/-- `get_global_variables(addr)`.  Modelled from the spec (§4.3): the global
catalog is keyed by absolute address. -/
def FuncVM.getGlobalVariables (vm : FuncVM) (addr : Int) : List SimVariable :=
  (vm.vars.filter (fun p => p.1 == VarSort.glob && p.2.1 == AExpr.intE addr)).map
    (fun p => p.2.2)

/-- The type-variable store (`state.typevars`).  Modelled from the spec
(§4.4): it attaches type variables to variables at code locations and also
supports per-variable lookup (`var in typevars`, `typevars[var]`).  The key
is an `Option` because `_reference` can record a type variable before any
variable was identified. -/
structure TypeVars where
  entries : List (Option SimVariable × CodeLocation × TypeVar)
deriving DecidableEq

/-- `add_type_variable(variable, codeloc, typevar)`. -/
def TypeVars.add (t : TypeVars) (v : Option SimVariable) (loc : CodeLocation)
    (tv : TypeVar) : TypeVars :=
  ⟨t.entries ++ [(v, loc, tv)]⟩

/-- `has_type_variable_for(variable, codeloc)`. -/
def TypeVars.hasFor (t : TypeVars) (v : Option SimVariable) (loc : CodeLocation) : Bool :=
  t.entries.any (fun e => e.1 == v && e.2.1 == loc)

/-- `get_type_variable(variable, codeloc)`: the most recently attached. -/
def TypeVars.getFor (t : TypeVars) (v : Option SimVariable) (loc : CodeLocation) :
    Option TypeVar :=
  (t.entries.reverse.find? (fun e => e.1 == v && e.2.1 == loc)).map (fun e => e.2.2)

/-- `variable in typevars`. -/
def TypeVars.hasVar (t : TypeVars) (v : Option SimVariable) : Bool :=
  t.entries.any (fun e => e.1 == v)

/-- `typevars[variable]`: the most recently attached for the variable. -/
def TypeVars.getVar (t : TypeVars) (v : Option SimVariable) : Option TypeVar :=
  (t.entries.reverse.find? (fun e => e.1 == v)).map (fun e => e.2.2)

/-- Architecture facts consumed by the engine: bits per byte, the
stack-pointer and base-pointer register offsets, and the artificial-register
predicate given by its graph. -/
structure Arch where
  byteWidth : Nat
  spOffset : Int
  bpOffset : Int
  artificialRegs : List (Int × Nat)
deriving DecidableEq

/-- `arch.is_artificial_register(offset, size)`. -/
def Arch.isArtificialRegister (a : Arch) (offset : Int) (size : Nat) : Bool :=
  a.artificialRegs.contains (offset, size)

/-- The full analysis-state snapshot threaded through one engine operation,
together with the per-statement engine context (`block.addr`, `stmt_idx`,
`ins_addr`, `func_addr`). -/
structure VRState where
  stackRegion : Region
  registerRegion : Region
  globalRegion : Region
  typevars : TypeVars
  typeConstraints : List TypeConstraint
  delayedTypeConstraints : List (SimVariable × List TypeConstraint)
  vmFunc : FuncVM
  vmGlobal : FuncVM
  tvCtr : Nat
  arch : Arch
  funcAddr : Nat
  blockAddr : Nat
  stmtIdx : Nat
  insAddr : Nat
deriving DecidableEq

/-- `self._codeloc()` / `CodeLocation(self.block.addr, self.stmt_idx,
ins_addr=self.ins_addr)`. -/
def VRState.codeloc (s : VRState) : CodeLocation :=
  ⟨s.blockAddr, s.stmtIdx, s.insAddr⟩

/-- `state.top(bits)`. -/
def VRState.top (_s : VRState) (bits : Nat) : AValue :=
  ⟨bits, .topK, []⟩

/-- `state.is_stack_address(addr)`: exhaustive test on the tagged variant. -/
def VRState.isStackAddress (_s : VRState) (v : AValue) : Bool :=
  match v.kind with
  | .stackAddrK _ => true
  | _ => false

/-- `state.get_stack_offset(addr)`: the extractable stack offset. -/
def VRState.getStackOffset (_s : VRState) (v : AValue) : Option PotOffset :=
  match v.kind with
  | .stackAddrK so => so
  | _ => none

/-- `state.annotate_with_variables(expr, variables)`.  Modelled from the
spec (§2 component 1): the variable annotations of the value are replaced by
the given list. -/
def VRState.annotateWithVariables (_s : VRState) (v : AValue)
    (l : List (AExpr × SimVariable)) : AValue :=
  { v with annots := l }

/-- `state.extract_variables(expr)`. -/
def VRState.extractVariables (_s : VRState) (v : AValue) : List (AExpr × SimVariable) :=
  v.annots

/-- `state.stack_addr_from_offset(offset, ...)`.  Modelled from the spec
(§4.7): the concrete part of a stack offset is used directly as the storage
key into the stack region (the bijective rebasing of the original is
dropped, custom masks are not applied). -/
def VRState.stackAddrFromOffset (_s : VRState) (off : AExpr) : AExpr :=
  off

/-- `state.add_type_constraint(constraint)`: append-only (spec §4.4). -/
def VRState.addTypeConstraint (s : VRState) (c : TypeConstraint) : VRState :=
  { s with typeConstraints := s.typeConstraints ++ [c] }

/-- Fold `add_type_constraint` over a list (the `for tc in ...` loops). -/
def addAllConstraints (s : VRState) (cs : List TypeConstraint) : VRState :=
  cs.foldl (fun s c => s.addTypeConstraint c) s

/-- `typevars.TypeVariable()`: allocate a fresh type variable. -/
def VRState.freshTypeVar (s : VRState) : TypeVar × VRState :=
  (.base ⟨s.tvCtr⟩, { s with tvCtr := s.tvCtr + 1 })

/-- Lookup in the delayed-type-constraints table. -/
def delayedGet (d : List (SimVariable × List TypeConstraint)) (v : SimVariable) :
    Option (List TypeConstraint) :=
  (d.find? (fun p => p.1 == v)).map (fun p => p.2)

/-- `delayed_type_constraints.pop(var)`. -/
def delayedPop (d : List (SimVariable × List TypeConstraint)) (v : SimVariable) :
    List (SimVariable × List TypeConstraint) :=
  d.filter (fun p => p.1 != v)

/-- Collect the variable annotations over all values of a loaded window into
a set with insertion iteration order (the `set()` builders of `_load` and
`_store_to_stack`). -/
def collectVars (vs : MultiValues) : List (AExpr × SimVariable) :=
  vs.values.foldl (fun acc p => p.2.foldl (fun acc v => v.annots.foldl addUniq acc) acc) []

/-- The reference-recording loop at the end of `_reference`: one
`reference_at` event per found variable, with the offset into the variable
normalized so an exact-start reference is recorded without an offset. -/
def foldRefEvents (stackOffset : Option PotOffset) (codeloc : CodeLocation)
    (src : Option Nat) (l : List (SimVariable × AExpr)) (s : VRState) : VRState :=
  l.foldl
    (fun s p =>
      let offset := if p.2 = AExpr.noneE then AExpr.intE 0 else p.2
      let offsetIntoVar :=
        match stackOffset with
        | some so => AExpr.subE so.off offset
        | none => AExpr.noneE
      let offsetIntoVar := if offsetIntoVar = AExpr.intE 0 then AExpr.noneE
        else offsetIntoVar
      { s with vmFunc := s.vmFunc.referenceAt p.1 offsetIntoVar codeloc src })
    s

/-- `SimEngineVRBase._reference`: address-taken handling for a value
recognized as a stack address. -/
def vrReference (s : VRState) (richr : RichR) (codeloc : CodeLocation)
    (src : Option Nat) : VRState :=
  if s.isStackAddress richr.data then
    let stackOffset : Option PotOffset := s.getStackOffset richr.data
    let existingVars0 : List (SimVariable × AExpr) :=
      s.vmFunc.findByStmt s.blockAddr s.stmtIdx .memory
    let variable0 : Option SimVariable := (existingVars0.head?).map (fun p => p.1)
    let (variable1, existingVars1, s1) :
        Option SimVariable × List (SimVariable × AExpr) × VRState :=
      match stackOffset with
      | none => (variable0, existingVars0, s)
      | some so =>
        let stackAddr := s.stackAddrFromOffset so.off
        let (variable2, existingVars2, vs2, s2) :
            Option SimVariable × List (SimVariable × AExpr) × Option MultiValues × VRState :=
          match variable0 with
          | some v => (some v, existingVars0, none, s)
          | none =>
            let vs : Option MultiValues := s.stackRegion.load stackAddr 1
            let existingVars : List (SimVariable × AExpr) :=
              match vs with
              | some mv =>
                existingVars0 ++
                  (mv.values.foldl
                    (fun acc p =>
                      p.2.foldl (fun acc v =>
                        acc ++ v.annots.map (fun q => (q.2, q.1))) acc)
                    [])
              | none => existingVars0
            if existingVars.isEmpty then
              let (ident, vmF) := s.vmFunc.nextIdent .stack
              let variab := SimVariable.stackV so.off 1 (some ident) s.funcAddr
              let vmF := vmF.addVar .stack so.off variab
              (some variab, existingVars ++ [(variab, AExpr.intE 0)],
                vs, { s with vmFunc := vmF })
            else
              (existingVars.head?.map (fun p => p.1), existingVars, vs, s)
        -- write the variable back to stack
        let vsFinal : MultiValues :=
          match vs2 with
          | some mv => mv
          | none =>
            let t := s2.top s2.arch.byteWidth
            let t := s2.annotateWithVariables t
              (match variable2 with
               | some v => [(AExpr.intE 0, v)]
               | none => [])
            ⟨[(0, [t])]⟩
        let s3 := { s2 with
          stackRegion := s2.stackRegion.storeMV stackAddr vsFinal s2.arch.byteWidth }
        (variable2, existingVars2, s3)
    let (typevar, s4) : TypeVar × VRState :=
      match richr.typevar with
      | none => s1.freshTypeVar
      | some t => (t, s1)
    let s5 := { s4 with typevars := s4.typevars.add variable1 codeloc typevar }
    foldRefEvents stackOffset codeloc src existingVars1 s5
  else
    s

/-- The destination-variable selection of `_assign_to_register` (lookup by
atom, or a fresh register variable). -/
def assignDestVar (s : VRState) (offset : Int) (size : Nat) (dst : Option Nat) :
    SimVariable :=
  match s.vmFunc.findByAtom s.blockAddr s.stmtIdx dst with
  | [] => SimVariable.regV offset size (some s.vmFunc.regCtr) s.funcAddr
  | (v, _) :: _ => v

/-- `SimEngineVRBase._assign_to_register`. -/
def vrAssignToRegister (s : VRState) (offset : Int) (richr : RichR) (size : Nat)
    (src dst : Option Nat) : VRState :=
  let codeloc := s.codeloc
  -- lea
  let s := vrReference s richr codeloc src
  -- handle register writes
  let existingVars := s.vmFunc.findByAtom s.blockAddr s.stmtIdx dst
  let (variab, s) : SimVariable × VRState :=
    match existingVars with
    | [] =>
      let (ident, vmF) := s.vmFunc.nextIdent .register
      let v := SimVariable.regV offset size (some ident) s.funcAddr
      let vmF := vmF.setVar .register (AExpr.intE offset) v
      (v, { s with vmFunc := vmF })
    | (v, _) :: _ => (v, s)
  let annotatedData := s.annotateWithVariables richr.data [(AExpr.intE 0, variab)]
  let v : MultiValues := ⟨[(0, [annotatedData])]⟩
  let s := { s with
    registerRegion := s.registerRegion.storeMV (AExpr.intE offset) v s.arch.byteWidth }
  -- register with the variable manager
  let s := { s with vmFunc := s.vmFunc.writeTo variab AExpr.noneE codeloc dst }
  if s.arch.isArtificialRegister offset size = false && richr.typevar.isSome then
    if s.typevars.hasFor (some variab) codeloc = false then
      -- assign a new type variable to it
      let (typevar, s) := s.freshTypeVar
      let s := { s with typevars := s.typevars.add (some variab) codeloc typevar }
      -- create constraints
      let s := s.addTypeConstraint
        (.subtypeC (.tv (richr.typevar.getD typevar)) (.tv typevar))
      s.addTypeConstraint (.subtypeC (.tv typevar) (.intType (variab.size * 8)))
    else s
  else s

/-- The write-event loop of `_store_to_stack`: one `write_to` event per
variable overlapping the just-written window, with a zero offset into the
variable normalized to `None`. -/
def foldWriteEventsNorm (codeloc : CodeLocation) (stmt : Option Nat)
    (ps : List (AExpr × SimVariable)) (s : VRState) : VRState :=
  ps.foldl
    (fun s p =>
      let offsetIntoVar := if p.1 = AExpr.intE 0 then AExpr.noneE else p.1
      { s with vmFunc := s.vmFunc.writeTo p.2 offsetIntoVar codeloc stmt })
    s

/-- The write-event loop of `_store_to_global`: one `write_to` event per
variable found on the read-back values, with the raw variable offset. -/
def foldWriteEventsRaw (codeloc : CodeLocation) (stmt : Option Nat)
    (ps : List (AExpr × SimVariable)) (s : VRState) : VRState :=
  ps.foldl
    (fun s p => { s with vmGlobal := s.vmGlobal.writeTo p.2 p.1 codeloc stmt })
    s

/-- `SimEngineVRBase._store_to_stack`. -/
def vrStoreToStack (s : VRState) (stackOffset : PotOffset) (data : RichR)
    (size : Nat) (stmt : Option Nat) : VRState :=
  let existingVars : List (SimVariable × AExpr) :=
    match stmt with
    | none => s.vmFunc.findByStmt s.blockAddr s.stmtIdx .memory
    | some a => s.vmFunc.findByAtom s.blockAddr s.stmtIdx (some a)
  let (variab, variableOffset, s) : SimVariable × AExpr × VRState :=
    match existingVars with
    | [] =>
      let (ident, vmF) := s.vmFunc.nextIdent .stack
      let v := SimVariable.stackV stackOffset.off size (some ident) s.funcAddr
      let vmF :=
        match stackOffset.asPyInt with
        | some k => vmF.setVar .stack (AExpr.intE k) v
        | none => vmF
      (v, AExpr.intE 0, { s with vmFunc := vmF })
    | (v, off) :: _ => (v, off, s)
  match stackOffset.asPyInt with
  | none => s
  | some k =>
    let expr := s.annotateWithVariables data.data [(variableOffset, variab)]
    let stackAddr := s.stackAddrFromOffset (AExpr.intE k)
    let s := { s with
      stackRegion := s.stackRegion.storeVal stackAddr expr s.arch.byteWidth }
    let codeloc := s.codeloc
    let addrAndVariables : List (AExpr × SimVariable) :=
      match s.stackRegion.load stackAddr size with
      | some vs => collectVars vs
      | none => []
    let s := foldWriteEventsNorm codeloc stmt addrAndVariables s
    -- create type constraints
    match data.typevar with
    | none => s
    | some dtv =>
      let (typevar, s) : Option TypeVar × VRState :=
        if s.typevars.hasFor (some variab) codeloc = false then
          let (tv, s) := s.freshTypeVar
          (some tv, { s with typevars := s.typevars.add (some variab) codeloc tv })
        else
          (s.typevars.getFor (some variab) codeloc, s)
      match typevar with
      | some tv => s.addTypeConstraint (.subtypeC (.tv dtv) (.tv tv))
      | none => s

/-- `SimEngineVRBase._store_to_global`. -/
def vrStoreToGlobal (s : VRState) (addr : Int) (data : RichR) (size : Nat)
    (stmt : Option Nat) : VRState :=
  let existingVars : List (SimVariable × AExpr) :=
    match stmt with
    | none => s.vmGlobal.findByStmt s.blockAddr s.stmtIdx .memory
    | some a => s.vmGlobal.findByAtom s.blockAddr s.stmtIdx (some a)
  let (variab, s) : SimVariable × VRState :=
    match existingVars with
    | [] =>
      let (ident, vmG) := s.vmGlobal.nextIdent .glob
      let v := SimVariable.memV addr size (some ident)
      let vmG := vmG.setVar .glob (AExpr.intE addr) v
      (v, { s with vmGlobal := vmG })
    | (v, _) :: _ => (v, s)
  let dataExpr := s.annotateWithVariables data.data [(AExpr.intE 0, variab)]
  let s := { s with
    globalRegion := s.globalRegion.storeVal (AExpr.intE addr) dataExpr s.arch.byteWidth }
  let codeloc := s.codeloc
  -- immediately read the window back (an uncovered window would raise in the
  -- original; it is modelled as the empty map)
  let readBack : List (AExpr × SimVariable) :=
    match s.globalRegion.load (AExpr.intE addr) size with
    | some vs => collectVars vs
    | none => []
  let s := foldWriteEventsRaw codeloc stmt readBack s
  -- create type constraints
  match data.typevar with
  | none => s
  | some dtv =>
    let (typevar, s) : Option TypeVar × VRState :=
      if s.typevars.hasFor (some variab) codeloc = false then
        let (tv, s) := s.freshTypeVar
        (some tv, { s with typevars := s.typevars.add (some variab) codeloc tv })
      else
        (s.typevars.getFor (some variab) codeloc, s)
    match typevar with
    | some tv => s.addTypeConstraint (.subtypeC (.tv dtv) (.tv tv))
    | none => s

/-- `SimEngineVRBase._store_to_variable`: storing through a pointer whose
concrete target is unknowable. -/
def vrStoreToVariable (s : VRState) (richrAddr : RichR) (size : Nat)
    (_stmt : Option Nat) : VRState :=
  let addrVariable := richrAddr.var
  let codeloc := s.codeloc
  let s := addAllConstraints s richrAddr.type_constraints
  let (typevar, s) : TypeVar × VRState :=
    match richrAddr.typevar with
    | none => s.freshTypeVar
    | some t => (t, s)
  let (baseTypevar, fieldOffset) := decomposeAddN typevar
  let storeTypevar : TypeVar :=
    .derived (.derived baseTypevar .storeL)
      (.hasField (size * s.arch.byteWidth) fieldOffset)
  let s :=
    match addrVariable with
    | some v => { s with typevars := s.typevars.add (some v) codeloc typevar }
    | none => s
  s.addTypeConstraint (.existenceC storeTypevar)

/-- `SimEngineVRBase._store`: dispatch on the address kind. -/
def vrStore (s : VRState) (richrAddr : RichR) (data : RichR) (size : Nat)
    (stmt : Option Nat) : VRState :=
  let addr := richrAddr.data
  match addr.kind with
  | .concreteK n => vrStoreToGlobal s n data size stmt
  | _ =>
    if s.isStackAddress addr then
      match s.getStackOffset addr with
      | some so => vrStoreToStack s so data size stmt
      | none => vrStoreToVariable s richrAddr size stmt
    else
      vrStoreToVariable s richrAddr size stmt

/-- The read-event loop of the concrete-address part of `_load`: one
`read_from` event at offset `0` per global variable. -/
def foldGlobalReads (codeloc : CodeLocation) (expr : Option Nat)
    (vs : List SimVariable) (s : VRState) : VRState :=
  vs.foldl
    (fun s v => { s with vmGlobal := s.vmGlobal.readFrom v (AExpr.intE 0) codeloc expr })
    s

/-- The concrete-address part of `_load`: global variable lookup and read
recording. -/
def vrLoadGlobalPart (s : VRState) (addrV : Int) (size : Nat) (expr : Option Nat)
    (codeloc : CodeLocation) : VRState :=
  let gvars := s.vmGlobal.getGlobalVariables addrV
  let (gvars, s) : List SimVariable × VRState :=
    if gvars.isEmpty then
      let v := SimVariable.memV addrV size none
      let vmG := s.vmGlobal.addVar .glob (AExpr.intE addrV) v
      ([v], { s with vmGlobal := vmG })
    else (gvars, s)
  foldGlobalReads codeloc expr gvars s

/-- The trailing pointer part of `_load`: fold the address's constraints,
decompose its type variable, and derive a `Load`/`HasField` type variable. -/
def vrLoadPointerPart (s : VRState) (richrAddr : RichR) (size : Nat) :
    Option RichR × VRState :=
  let s := addAllConstraints s richrAddr.type_constraints
  let (offset, richrAddrTypevar) : Int × Option TypeVar :=
    match richrAddr.typevar with
    | some (.derived b (.addN n)) => (n, some b)
    | t => (0, t)
  match richrAddrTypevar with
  | some rtv =>
    let typevar : TypeVar :=
      .derived (.derived rtv .loadL) (.hasField (size * s.arch.byteWidth) offset)
    let s := s.addTypeConstraint (.existenceC typevar)
    (some ⟨s.top (size * s.arch.byteWidth), none, some typevar, []⟩, s)
  | none =>
    (some ⟨s.top (size * s.arch.byteWidth), none, none, []⟩, s)

/-- The concrete/dynamic split of a stack offset performed at the head of
the stack branch of `_load`: an `ArithmeticExpression` with an integer
operand is split into that concrete part and the residual dynamic part;
with no integer operand the concrete part is given up; anything else is
taken as the concrete part itself. -/
def splitStackOffset : AExpr → Option AExpr × Option AExpr
  | .add a b =>
    if a.isIntE then (some a, some b)
    else if b.isIntE then (some b, some a)
    else (none, some (AExpr.add a b))
  | .sub a b =>
    if a.isIntE then (some a, some b)
    else if b.isIntE then (some b, some a)
    else (none, some (AExpr.sub a b))
  | other => (some other, none)

/-- The offset-into-variable computation of the stack branch of `_load`: no
dynamic part reports no offset; a dynamic part is reported as-is for a
variable found at offset `0` and otherwise wrapped in a symbolic
addition. -/
def loadOffsetIntoVariable (dynamicOffset : Option AExpr) (varOffset : AExpr) : AExpr :=
  match dynamicOffset with
  | none => AExpr.noneE
  | some dyn =>
    if varOffset = AExpr.intE 0 then dyn
    else AExpr.add dyn varOffset

/-- The stack-address branch of `_load`. -/
def vrLoadStackPart (s : VRState) (po : PotOffset) (size : Nat) (expr : Option Nat)
    (codeloc : CodeLocation) : Option RichR × VRState :=
  let stackOffset := po.off
  -- split the offset into a concrete offset and a dynamic offset
  let split := splitStackOffset stackOffset
  let concreteOffset : Option AExpr := split.1
  let dynamicOffset : Option AExpr := split.2
  let values : Option MultiValues :=
    match concreteOffset with
    | none => none
    | some co => s.stackRegion.load (s.stackAddrFromOffset co) size
  let allVars0 : List (AExpr × SimVariable) :=
    match values with
    | some vs => collectVars vs
    | none => []
  let (allVars, s) : List (AExpr × SimVariable) × VRState :=
    if allVars0.isEmpty then
      let (ident, vmF) := s.vmFunc.nextIdent .stack
      let variab := SimVariable.stackV (AExpr.ofOpt concreteOffset) size
        (some ident) s.funcAddr
      let v := s.top (size * s.arch.byteWidth)
      let v := s.annotateWithVariables v [(AExpr.intE 0, variab)]
      let s := { s with vmFunc := vmF }
      let s := { s with
        stackRegion :=
          s.stackRegion.storeVal (AExpr.ofOpt concreteOffset) v s.arch.byteWidth }
      let s := { s with
        vmFunc := s.vmFunc.addVar .stack (AExpr.ofOpt concreteOffset) variab }
      ([(AExpr.intE 0, variab)], s)
    else (allVars0, s)
  -- overlapping variables: a warning is logged and all but the first ignored
  match allVars with
  | [] => (none, s)
  | (varOffset, var) :: _ =>
    let offsetIntoVariable : AExpr := loadOffsetIntoVariable dynamicOffset varOffset
    let s := { s with vmFunc := s.vmFunc.readFrom var offsetIntoVariable codeloc expr }
    -- add delayed type constraints
    let s :=
      match delayedGet s.delayedTypeConstraints var with
      | some cs =>
        let s := addAllConstraints s cs
        { s with delayedTypeConstraints := delayedPop s.delayedTypeConstraints var }
      | none => s
    -- create type constraints
    let (typevar, s) : Option TypeVar × VRState :=
      if s.typevars.hasFor (some var) codeloc = false then
        let (tv, s) := s.freshTypeVar
        (some tv, { s with typevars := s.typevars.add (some var) codeloc tv })
      else
        (s.typevars.getFor (some var) codeloc, s)
    let r := s.top (size * s.arch.byteWidth)
    let r := s.annotateWithVariables r allVars
    (some ⟨r, some var, typevar, []⟩, s)

/-- `SimEngineVRBase._load`. -/
def vrLoad (s : VRState) (richrAddr : RichR) (size : Nat) (expr : Option Nat) :
    Option RichR × VRState :=
  let addr := richrAddr.data
  let codeloc : CodeLocation := ⟨s.blockAddr, s.stmtIdx, s.insAddr⟩
  if s.isStackAddress addr then
    match s.getStackOffset addr with
    | some po => vrLoadStackPart s po size expr codeloc
    | none => vrLoadPointerPart s richrAddr size
  else
    match addr.kind with
    | .concreteK addrV =>
      let s := vrLoadGlobalPart s addrV size expr codeloc
      vrLoadPointerPart s richrAddr size
    | _ => vrLoadPointerPart s richrAddr size

/-- One step of the variable-collection loop of `_read_from_register`:
record a `read_from` event for the annotated variable and add it to the
variable set. -/
def regReadStep (codeloc : CodeLocation) (expr : Option Nat)
    (acc : List SimVariable × VRState) (p : AExpr × SimVariable) :
    List SimVariable × VRState :=
  (addUniq acc.1 p.2,
   { acc.2 with vmFunc := acc.2.vmFunc.readFrom p.2 AExpr.noneE codeloc expr })

/-- The variable-collection loop of `_read_from_register`: extract the
annotated variables from every loaded value, record one `read_from` event
per occurrence, and accumulate the variable set in insertion order. -/
def regReadCollect (codeloc : CodeLocation) (expr : Option Nat)
    (valueList : List (List AValue)) (acc : List SimVariable × VRState) :
    List SimVariable × VRState :=
  valueList.foldl
    (fun acc valueSet =>
      valueSet.foldl
        (fun acc value => value.annots.foldl (regReadStep codeloc expr) acc)
        acc)
    acc

/-- `SimEngineVRBase._read_from_register`.  A `none` result is the
`StopIteration`/`IndexError` crash of the original; the state reflects all
mutations performed before the crash point. -/
def vrReadFromRegister (s : VRState) (offset : Int) (size : Nat) (expr : Option Nat) :
    Option RichR × VRState :=
  let codeloc := s.codeloc
  let values : Option MultiValues := s.registerRegion.load (AExpr.intE offset) size
  let (valueList, s) : List (List AValue) × VRState :=
    match values with
    | none =>
      -- the value does not exist: create a new variable
      let (ident, vmF) := s.vmFunc.nextIdent .register
      let variab := SimVariable.regV offset size (some ident) s.funcAddr
      let value := s.top (size * s.arch.byteWidth)
      let value := s.annotateWithVariables value [(AExpr.intE 0, variab)]
      let s := { s with vmFunc := vmF }
      let s := { s with
        registerRegion :=
          s.registerRegion.storeVal (AExpr.intE offset) value s.arch.byteWidth }
      let s := { s with
        vmFunc := s.vmFunc.addVar .register (AExpr.intE offset) variab }
      ([[value]], s)
    | some mv => (mv.values.map (fun p => p.2), s)
  let (variableSet, s) : List SimVariable × VRState :=
    regReadCollect codeloc expr valueList ([], s)
  if s.arch.isArtificialRegister offset size ||
      offset == s.arch.spOffset || offset == s.arch.bpOffset then
    match (valueList.head?).bind List.head? with
    | some v0 => (some ⟨v0, none, none, []⟩, s)
    | none => (none, s)
  else
    -- the precision loss of returning only the first variab is accepted
    match variableSet with
    | [] => (none, s)
    | var :: _ =>
      -- add delayed type constraints
      let s :=
        match delayedGet s.delayedTypeConstraints var with
        | some cs =>
          let s := addAllConstraints s cs
          { s with delayedTypeConstraints := delayedPop s.delayedTypeConstraints var }
        | none => s
      let (typevar, s) : Option TypeVar × VRState :=
        if s.typevars.hasVar (some var) = false then
          let (tv, s) := s.freshTypeVar
          (some tv, { s with typevars := s.typevars.add (some var) codeloc tv })
        else
          (s.typevars.getVar (some var), s)
      match (valueList.head?).bind List.head? with
      | some v0 => (some ⟨v0, some var, typevar, []⟩, s)
      | none => (none, s)

/-- Engine-level faults that can escape `_process`: `SimEngineError` and any
other exception kind. -/
inductive EngineFault
  | simEngineError (msg : Nat)
  | otherFault (msg : Nat)
deriving DecidableEq

/-- `SimEngineVRBase.process`: run the per-statement processing and catch
`SimEngineError`, re-raising it only when `fail_fast` was requested. -/
def vrProcess (failFast : Bool) (result : Except EngineFault Unit) :
    Except EngineFault Unit :=
  match result with
  | .ok _ => .ok ()
  | .error (.simEngineError m) =>
    if failFast then .error (.simEngineError m) else .ok ()
  | .error (.otherFault m) => .error (.otherFault m)

/-! ### Concrete fixtures used by witnesses and counterexamples -/

/-- An empty variable-manager catalog. -/
def vm0 : FuncVM := ⟨[], [], 0, 0, 0, [], []⟩

/-- A small architecture: 8-bit bytes, stack pointer at register offset 24,
base pointer at 32, one artificial register at offset 100 of size 4. -/
def arch0 : Arch := ⟨8, 24, 32, [(100, 4)]⟩

/-- A pristine analysis state at a fixed code location. -/
def s0 : VRState :=
  ⟨⟨[]⟩, ⟨[]⟩, ⟨[]⟩, ⟨[]⟩, [], [], vm0, vm0, 0, arch0, 4194304, 4096, 3, 4100⟩

/-! ### Helper lemmas -/

theorem addAllConstraints_typeConstraints (cs : List TypeConstraint) :
    ∀ s : VRState,
      (addAllConstraints s cs).typeConstraints = s.typeConstraints ++ cs := by
  induction cs with
  | nil => intro s; simp [addAllConstraints]
  | cons c cs ih =>
    intro s
    simp only [addAllConstraints, List.foldl_cons] at *
    rw [ih]
    simp [VRState.addTypeConstraint]

theorem addAllConstraints_fields (cs : List TypeConstraint) :
    ∀ s : VRState,
      (addAllConstraints s cs).stackRegion = s.stackRegion ∧
      (addAllConstraints s cs).registerRegion = s.registerRegion ∧
      (addAllConstraints s cs).globalRegion = s.globalRegion ∧
      (addAllConstraints s cs).typevars = s.typevars ∧
      (addAllConstraints s cs).delayedTypeConstraints = s.delayedTypeConstraints ∧
      (addAllConstraints s cs).vmFunc = s.vmFunc ∧
      (addAllConstraints s cs).vmGlobal = s.vmGlobal ∧
      (addAllConstraints s cs).tvCtr = s.tvCtr ∧
      (addAllConstraints s cs).arch = s.arch := by
  induction cs with
  | nil => intro s; simp [addAllConstraints]
  | cons c cs ih =>
    intro s
    simp only [addAllConstraints, List.foldl_cons] at *
    rw [(ih _).1, (ih _).2.1, (ih _).2.2.1, (ih _).2.2.2.1, (ih _).2.2.2.2.1,
      (ih _).2.2.2.2.2.1, (ih _).2.2.2.2.2.2.1, (ih _).2.2.2.2.2.2.2.1]
    simp [VRState.addTypeConstraint]
    exact (ih _).2.2.2.2.2.2.2.2


/-! ### C1 -/

/-- C1: for every store statement whose address is neither a concrete
absolute address nor a resolvable stack address (and whose address `RichR`
carries no extra constraints of its own), the engine emits exactly one
`Existence` constraint, on `HasField(size * byte_width, field_offset)`
applied to `Store` applied to the base type variable obtained by `AddN`
decomposition of the address's type variable (fresh if absent), and leaves
the stack, register and global regions unchanged. -/
theorem c1_unknown_ptr_store (s : VRState) (richrAddr dataR : RichR)
    (size : Nat) (stmt : Option Nat)
    (hconc : richrAddr.data.kind.isConcrete = false)
    (hstack : richrAddr.data.kind.isResolvableStack = false)
    (htc : richrAddr.type_constraints = []) :
    (vrStore s richrAddr dataR size stmt).typeConstraints =
      s.typeConstraints ++
        [TypeConstraint.existenceC
          (.derived
            (.derived (decomposeAddN (richrAddr.typevar.getD (.base ⟨s.tvCtr⟩))).1
              .storeL)
            (.hasField (size * s.arch.byteWidth)
              (decomposeAddN (richrAddr.typevar.getD (.base ⟨s.tvCtr⟩))).2))] ∧
    (vrStore s richrAddr dataR size stmt).stackRegion = s.stackRegion ∧
    (vrStore s richrAddr dataR size stmt).registerRegion = s.registerRegion ∧
    (vrStore s richrAddr dataR size stmt).globalRegion = s.globalRegion := by
  obtain ⟨⟨bits, kind, annots⟩, avar, atv, atcs⟩ := richrAddr
  simp only [RichR.type_constraints] at htc
  subst htc
  cases kind with
  | topK =>
    cases atv with
    | none =>
      cases avar <;>
        simp [vrStore, vrStoreToVariable, VRState.isStackAddress, addAllConstraints,
          VRState.freshTypeVar, VRState.addTypeConstraint, decomposeAddN]
    | some t =>
      cases avar <;>
        simp [vrStore, vrStoreToVariable, VRState.isStackAddress, addAllConstraints,
          VRState.freshTypeVar, VRState.addTypeConstraint]
  | concreteK n => simp [AValKind.isConcrete] at hconc
  | stackAddrK so =>
    cases so with
    | none =>
      cases atv with
      | none =>
        cases avar <;>
          simp [vrStore, vrStoreToVariable, VRState.isStackAddress,
            VRState.getStackOffset, addAllConstraints, VRState.freshTypeVar,
            VRState.addTypeConstraint, decomposeAddN]
      | some t =>
        cases avar <;>
          simp [vrStore, vrStoreToVariable, VRState.isStackAddress,
            VRState.getStackOffset, addAllConstraints, VRState.freshTypeVar,
            VRState.addTypeConstraint]
    | some po => simp [AValKind.isResolvableStack] at hstack

/-- Witness for C1 at a concrete input: a 4-byte store through a fully
opaque pointer on the pristine state. -/
theorem c1_unknown_ptr_store_witness :
    ((⟨⟨64, .topK, []⟩, none, none, []⟩ : RichR).data.kind.isConcrete = false) ∧
    ((⟨⟨64, .topK, []⟩, none, none, []⟩ : RichR).data.kind.isResolvableStack = false) ∧
    (vrStore s0 ⟨⟨64, .topK, []⟩, none, none, []⟩ ⟨⟨32, .topK, []⟩, none, none, []⟩
        4 none).typeConstraints =
      s0.typeConstraints ++
        [TypeConstraint.existenceC
          (.derived
            (.derived
              (decomposeAddN
                ((⟨⟨64, .topK, []⟩, none, none, []⟩ : RichR).typevar.getD
                  (.base ⟨s0.tvCtr⟩))).1
              .storeL)
            (.hasField (4 * s0.arch.byteWidth)
              (decomposeAddN
                ((⟨⟨64, .topK, []⟩, none, none, []⟩ : RichR).typevar.getD
                  (.base ⟨s0.tvCtr⟩))).2))] := by
  refine ⟨by decide, by decide, ?_⟩
  exact (c1_unknown_ptr_store s0 ⟨⟨64, .topK, []⟩, none, none, []⟩
    ⟨⟨32, .topK, []⟩, none, none, []⟩ 4 none rfl rfl rfl).1


/-- A projection left unchanged by every step of a fold is unchanged by the
whole fold. -/
theorem foldl_pres {σ α γ : Type} (f : σ → α → σ) (g : σ → γ)
    (h : ∀ s x, g (f s x) = g s) (l : List α) :
    ∀ s, g (List.foldl f s l) = g s := by
  induction l with
  | nil => intro s; rfl
  | cons x xs ih => intro s; rw [List.foldl_cons, ih, h]

/-- A projection left unchanged by `regReadStep` is unchanged by the whole
collection loop. -/
theorem regReadCollect_pres {γ : Type} (codeloc : CodeLocation) (expr : Option Nat)
    (g : List SimVariable × VRState → γ)
    (h : ∀ acc p, g (regReadStep codeloc expr acc p) = g acc)
    (vl : List (List AValue)) (acc : List SimVariable × VRState) :
    g (regReadCollect codeloc expr vl acc) = g acc := by
  unfold regReadCollect
  refine foldl_pres _ g ?_ vl acc
  intro s x
  refine foldl_pres _ g ?_ x s
  intro s' v
  exact foldl_pres _ g h v.annots s'

/-- Inner loop of the collection when every value lacks annotations. -/
theorem foldl_inner_empty (codeloc : CodeLocation) (expr : Option Nat)
    (vs : List AValue) (h : ∀ v ∈ vs, v.annots = []) :
    ∀ acc : List SimVariable × VRState,
      vs.foldl (fun acc value => value.annots.foldl (regReadStep codeloc expr) acc)
        acc = acc := by
  induction vs with
  | nil => intro acc; rfl
  | cons v vs ih =>
    intro acc
    rw [List.foldl_cons, h v (List.mem_cons_self _ _)]
    exact ih (fun v' hm => h v' (List.mem_cons_of_mem _ hm)) acc

/-- When no loaded value carries any variable annotation, the collection
loop is the identity: no variable is found and no event is recorded. -/
theorem regReadCollect_empty_annots (codeloc : CodeLocation) (expr : Option Nat)
    (vl : List (List AValue)) (h : ∀ vs ∈ vl, ∀ v ∈ vs, v.annots = []) :
    ∀ acc, regReadCollect codeloc expr vl acc = acc := by
  induction vl with
  | nil => intro acc; rfl
  | cons vs vl ih =>
    intro acc
    have hrest : ∀ vs' ∈ vl, ∀ v ∈ vs', v.annots = [] :=
      fun vs' hm => h vs' (List.mem_cons_of_mem _ hm)
    unfold regReadCollect
    rw [List.foldl_cons, foldl_inner_empty codeloc expr vs (h vs (List.mem_cons_self _ _))]
    have := ih hrest
    unfold regReadCollect at this
    exact this acc

/-! ### C8 -/

/-- C8: the per-statement entry point `process` swallows a `SimEngineError`
raised during statement processing by default, re-raises it when
`fail_fast=True` is requested, and passes successful processing through. -/
theorem c8_process_fault_handling (m : Nat) :
    vrProcess false (.error (.simEngineError m)) = .ok () ∧
    vrProcess true (.error (.simEngineError m)) = .error (.simEngineError m) ∧
    (∀ ff : Bool, vrProcess ff (.ok ()) = .ok ()) :=
  ⟨rfl, rfl, fun _ => rfl⟩

/-! ### C10 -/

/-- Preservation of the variable catalog and register-identifier counter by
`_read_from_register` whenever the region load succeeds: no variable is
synthesized on the non-missing path. -/
theorem readFromRegister_some_preserves (s : VRState) (offset : Int) (size : Nat)
    (expr : Option Nat) (mv : MultiValues)
    (hload : s.registerRegion.load (AExpr.intE offset) size = some mv) :
    (vrReadFromRegister s offset size expr).2.vmFunc.vars = s.vmFunc.vars ∧
    (vrReadFromRegister s offset size expr).2.vmFunc.regCtr = s.vmFunc.regCtr := by
  have hvars : ∀ (vl : List (List AValue)) (acc : List SimVariable × VRState),
      (regReadCollect s.codeloc expr vl acc).2.vmFunc.vars = acc.2.vmFunc.vars :=
    fun vl acc =>
      regReadCollect_pres _ _ (fun a => a.2.vmFunc.vars) (fun _ _ => rfl) vl acc
  have hctr : ∀ (vl : List (List AValue)) (acc : List SimVariable × VRState),
      (regReadCollect s.codeloc expr vl acc).2.vmFunc.regCtr = acc.2.vmFunc.regCtr :=
    fun vl acc =>
      regReadCollect_pres _ _ (fun a => a.2.vmFunc.regCtr) (fun _ _ => rfl) vl acc
  simp only [vrReadFromRegister, hload]
  constructor <;>
  · split
    · split <;> simp [hvars, hctr]
    · split
      · simp [hvars, hctr]
      · split <;> split <;> split <;>
          simp [hvars, hctr, addAllConstraints_fields, VRState.freshTypeVar]

/-- C10: if a register read of a non-artificial, non-sp/bp register finds
stored values none of which carries a variable annotation, the operation
crashes (models `StopIteration` on the empty variable set) instead of
synthesizing a register variable, and leaves the state unchanged; moreover a
fresh register variable is only ever synthesized when the region load
reports missing data (on a successful load the variable catalog and
identifier counter are untouched). -/
theorem c10_register_read_unannotated (s : VRState) (offset : Int) (size : Nat)
    (expr : Option Nat) (mv : MultiValues)
    (hload : s.registerRegion.load (AExpr.intE offset) size = some mv)
    (hann : ∀ p ∈ mv.values, ∀ v ∈ p.2, v.annots = [])
    (hguard : (s.arch.isArtificialRegister offset size ||
        offset == s.arch.spOffset || offset == s.arch.bpOffset) = false) :
    (vrReadFromRegister s offset size expr).1 = none ∧
    (vrReadFromRegister s offset size expr).2 = s ∧
    (∀ (s' : VRState) (off' : Int) (sz' : Nat) (ex' : Option Nat) (mv' : MultiValues),
      s'.registerRegion.load (AExpr.intE off') sz' = some mv' →
      (vrReadFromRegister s' off' sz' ex').2.vmFunc.vars = s'.vmFunc.vars ∧
      (vrReadFromRegister s' off' sz' ex').2.vmFunc.regCtr = s'.vmFunc.regCtr) := by
  have hvl : ∀ vs ∈ mv.values.map (fun p => p.2), ∀ v ∈ vs, v.annots = [] := by
    intro vs hm v hv
    obtain ⟨p, hp, rfl⟩ := List.mem_map.mp hm
    exact hann p hp v hv
  have hcol :=
    regReadCollect_empty_annots s.codeloc expr (mv.values.map (fun p => p.2)) hvl ([], s)
  refine ⟨?_, ?_, fun s' off' sz' ex' mv' hl =>
    readFromRegister_some_preserves s' off' sz' ex' mv' hl⟩ <;>
  · simp only [vrReadFromRegister, hload, hcol, hguard]
    simp

/-- Witness for C10: a register region holding an unannotated 32-bit value
at offset 16. -/
theorem c10_register_read_unannotated_witness :
    ({ s0 with registerRegion := ⟨[⟨.intE 16, 4, [⟨32, .topK, []⟩]⟩]⟩ }
        : VRState).registerRegion.load (AExpr.intE 16) 4 =
      some ⟨[(0, [⟨32, .topK, []⟩])]⟩ ∧
    (vrReadFromRegister
      { s0 with registerRegion := ⟨[⟨.intE 16, 4, [⟨32, .topK, []⟩]⟩]⟩ }
      16 4 none).1 = none := by
  refine ⟨by decide, ?_⟩
  exact (c10_register_read_unannotated
    { s0 with registerRegion := ⟨[⟨.intE 16, 4, [⟨32, .topK, []⟩]⟩]⟩ }
    16 4 none ⟨[(0, [⟨32, .topK, []⟩])]⟩ (by decide)
    (by decide) (by decide)).1

/-! ### C3 -/

/-- `_reference` does nothing when the written value is not a stack
address. -/
theorem vrReference_not_stack (s : VRState) (richr : RichR) (codeloc : CodeLocation)
    (src : Option Nat) (h : s.isStackAddress richr.data = false) :
    vrReference s richr codeloc src = s := by
  simp [vrReference, h]

/-- Counterexample to C3 as stated: writing a value that carries no type
variable to a non-artificial register (offset 8 is neither artificial nor
sp/bp in `arch0`).  The claim's guard `not (artificial and no typevar)`
holds, so the claim demands a fresh type-variable binding and exactly two
constraints, but the engine emits nothing: the conjunction in the code is
`not artificial AND typevar present`. -/
theorem c3_counterexample :
    s0.arch.isArtificialRegister 8 4 = false ∧
    (vrAssignToRegister s0 8 ⟨⟨32, .topK, []⟩, none, none, []⟩ 4 none none).typeConstraints
      = [] ∧
    (vrAssignToRegister s0 8 ⟨⟨32, .topK, []⟩, none, none, []⟩ 4 none none).typevars
      = ⟨[]⟩ ∧
    (vrAssignToRegister s0 8 ⟨⟨32, .topK, []⟩, none, none, []⟩ 4 none
      none).typeConstraints.length ≠ s0.typeConstraints.length + 2 := by
  refine ⟨by decide, ?_, ?_, ?_⟩ <;> decide

/-- C3 (amended): on a register write of a value that is not a stack
address, the engine binds a fresh type variable and emits exactly the two
constraints `Subtype(source, dest)` and `Subtype(dest, int(size*8))` when
the destination register is not artificial, the written `RichR` carries a
type variable, AND no type variable exists for the destination variable at
this code location; in every other case it binds nothing and emits
nothing. -/
theorem c3_register_write_constraints (s : VRState) (offset : Int) (richr : RichR)
    (size : Nat) (src dst : Option Nat)
    (hns : s.isStackAddress richr.data = false) :
    ((s.arch.isArtificialRegister offset size = false ∧ richr.typevar.isSome = true ∧
      s.typevars.hasFor (some (assignDestVar s offset size dst)) s.codeloc = false) →
      (vrAssignToRegister s offset richr size src dst).typeConstraints =
        s.typeConstraints ++
          [.subtypeC (.tv (richr.typevar.getD (.base ⟨s.tvCtr⟩)))
              (.tv (.base ⟨s.tvCtr⟩)),
           .subtypeC (.tv (.base ⟨s.tvCtr⟩))
             (.intType ((assignDestVar s offset size dst).size * 8))] ∧
      (vrAssignToRegister s offset richr size src dst).typevars =
        s.typevars.add (some (assignDestVar s offset size dst)) s.codeloc
          (.base ⟨s.tvCtr⟩)) ∧
    ((s.arch.isArtificialRegister offset size = true ∨ richr.typevar = none ∨
      s.typevars.hasFor (some (assignDestVar s offset size dst)) s.codeloc = true) →
      (vrAssignToRegister s offset richr size src dst).typeConstraints =
        s.typeConstraints ∧
      (vrAssignToRegister s offset richr size src dst).typevars = s.typevars) := by
  have hrefl := vrReference_not_stack s richr s.codeloc src hns
  constructor
  · rintro ⟨hart, htv, hhas⟩
    unfold assignDestVar at hhas
    cases hev : s.vmFunc.findByAtom s.blockAddr s.stmtIdx dst with
    | nil =>
      rw [hev] at hhas
      simp [vrAssignToRegister, hrefl, assignDestVar, hev, hart, htv, hhas,
        FuncVM.nextIdent, FuncVM.setVar, VRState.freshTypeVar,
        VRState.addTypeConstraint, TypeVars.add, FuncVM.writeTo]
    | cons p rest =>
      rw [hev] at hhas
      obtain ⟨v, off⟩ := p
      simp [vrAssignToRegister, hrefl, assignDestVar, hev, hart, htv, hhas,
        VRState.freshTypeVar, VRState.addTypeConstraint, TypeVars.add,
        FuncVM.writeTo]
  · intro hneg
    unfold assignDestVar at hneg
    cases hev : s.vmFunc.findByAtom s.blockAddr s.stmtIdx dst with
    | nil =>
      rw [hev] at hneg
      rcases hneg with hart | htv | hhas
      · simp [vrAssignToRegister, hrefl, hev, hart]
      · simp [vrAssignToRegister, hrefl, hev, htv]
      · simp [vrAssignToRegister, hrefl, hev, hhas, FuncVM.writeTo,
          FuncVM.nextIdent, FuncVM.setVar]
    | cons p rest =>
      rw [hev] at hneg
      obtain ⟨v, off⟩ := p
      rcases hneg with hart | htv | hhas
      · simp [vrAssignToRegister, hrefl, hev, hart]
      · simp [vrAssignToRegister, hrefl, hev, htv]
      · simp [vrAssignToRegister, hrefl, hev, hhas, FuncVM.writeTo]

/-- Witness for the amended C3: a register write of a typevar-carrying
value to non-artificial register offset 8 on the pristine state. -/
theorem c3_register_write_constraints_witness :
    (s0.isStackAddress (⟨⟨32, .topK, []⟩, none, some (.base ⟨77⟩), []⟩ :
        RichR).data = false) ∧
    (vrAssignToRegister s0 8 ⟨⟨32, .topK, []⟩, none, some (.base ⟨77⟩), []⟩
        4 none none).typeConstraints =
      s0.typeConstraints ++
        [.subtypeC (.tv ((⟨⟨32, .topK, []⟩, none, some (.base ⟨77⟩), []⟩ :
              RichR).typevar.getD (.base ⟨s0.tvCtr⟩)))
            (.tv (.base ⟨s0.tvCtr⟩)),
         .subtypeC (.tv (.base ⟨s0.tvCtr⟩))
           (.intType ((assignDestVar s0 8 4 none).size * 8))] :=
  ⟨by decide,
   ((c3_register_write_constraints s0 8 ⟨⟨32, .topK, []⟩, none, some (.base ⟨77⟩), []⟩
      4 none none (by decide)).1 ⟨by decide, by decide, by decide⟩).1⟩

/-! ### C9 -/

/-- Counterexample to C9 as stated: on `arch0` the stack-pointer offset is
24 and is not an artificial register, and a register write at offset 24 of
a value carrying a type variable binds a type variable to the sp register
variable — `_assign_to_register` never tests the sp/bp offsets. -/
theorem c9_counterexample :
    s0.arch.spOffset = 24 ∧
    s0.arch.isArtificialRegister 24 4 = false ∧
    (vrAssignToRegister s0 24 ⟨⟨32, .topK, []⟩, none, some (.base ⟨77⟩), []⟩
        4 none none).typevars.hasFor
      (some (SimVariable.regV 24 4 (some 0) 4194304)) s0.codeloc = true := by
  refine ⟨rfl, by decide, by decide⟩

/-- C9 (amended): on a register READ at an artificial, stack-pointer or
base-pointer offset the engine binds no type variable and returns a `RichR`
with no type variable and no variable; on a register WRITE only artificial
registers are protected: an artificial destination (with a non-stack-address
value) binds no type variable and emits no constraint, while sp/bp
destinations are not excluded by the write path. -/
theorem c9_sp_bp_artificial (s : VRState) (offset : Int) (size : Nat)
    (ex : Option Nat) (richr : RichR) (src dst : Option Nat) :
    ((s.arch.isArtificialRegister offset size || offset == s.arch.spOffset ||
        offset == s.arch.bpOffset) = true →
      (vrReadFromRegister s offset size ex).2.typevars = s.typevars ∧
      ∀ r, (vrReadFromRegister s offset size ex).1 = some r →
        r.typevar = none ∧ r.var = none) ∧
    (s.arch.isArtificialRegister offset size = true →
      s.isStackAddress richr.data = false →
      (vrAssignToRegister s offset richr size src dst).typevars = s.typevars ∧
      (vrAssignToRegister s offset richr size src dst).typeConstraints =
        s.typeConstraints) := by
  constructor
  · intro hguard
    have htvs : ∀ (vl : List (List AValue)) (acc : List SimVariable × VRState),
        (regReadCollect s.codeloc ex vl acc).2.typevars = acc.2.typevars :=
      fun vl acc =>
        regReadCollect_pres _ _ (fun a => a.2.typevars) (fun _ _ => rfl) vl acc
    cases hload : s.registerRegion.load (AExpr.intE offset) size with
    | none =>
      constructor
      · simp [vrReadFromRegister, hguard, hload, regReadCollect, regReadStep,
          addUniq, FuncVM.readFrom, FuncVM.addVar, FuncVM.nextIdent,
          VRState.top, VRState.annotateWithVariables]
      · intro r hr
        simp [vrReadFromRegister, hguard, hload, regReadCollect, regReadStep,
          addUniq, FuncVM.readFrom, FuncVM.addVar, FuncVM.nextIdent,
          VRState.top, VRState.annotateWithVariables] at hr
        subst hr
        exact ⟨rfl, rfl⟩
    | some mv =>
      have harch : ∀ (vl : List (List AValue)) (acc : List SimVariable × VRState),
          (regReadCollect s.codeloc ex vl acc).2.arch = acc.2.arch :=
        fun vl acc =>
          regReadCollect_pres _ _ (fun a => a.2.arch) (fun _ _ => rfl) vl acc
      constructor
      · simp only [vrReadFromRegister, hload, harch]
        simp only [hguard, if_true]
        split <;> simp [htvs]
      · intro r hr
        simp only [vrReadFromRegister, hload, harch] at hr
        simp only [hguard, if_true] at hr
        split at hr
        · simp only [Option.some.injEq] at hr
          subst hr
          exact ⟨rfl, rfl⟩
        · simp at hr
  · intro hart hns
    have hrefl := vrReference_not_stack s richr s.codeloc src hns
    cases hev : s.vmFunc.findByAtom s.blockAddr s.stmtIdx dst with
    | nil => simp [vrAssignToRegister, hrefl, hev, hart]
    | cons p rest =>
      obtain ⟨v, off⟩ := p
      simp [vrAssignToRegister, hrefl, hev, hart]

/-- Witness for the amended C9: a read at the sp offset 24 and a write to
the artificial register at offset 100 on states with a loaded register
region. -/
theorem c9_sp_bp_artificial_witness :
    ((arch0.isArtificialRegister 24 4 || (24 : Int) == arch0.spOffset ||
        (24 : Int) == arch0.bpOffset) = true) ∧
    (vrReadFromRegister s0 24 4 none).2.typevars = s0.typevars ∧
    (arch0.isArtificialRegister 100 4 = true) ∧
    (vrAssignToRegister s0 100 ⟨⟨32, .topK, []⟩, none, some (.base ⟨77⟩), []⟩
        4 none none).typevars = s0.typevars :=
  ⟨by decide,
   ((c9_sp_bp_artificial s0 24 4 none ⟨⟨32, .topK, []⟩, none, none, []⟩
      none none).1 (by decide)).1,
   by decide,
   ((c9_sp_bp_artificial s0 100 4 none
      ⟨⟨32, .topK, []⟩, none, some (.base ⟨77⟩), []⟩ none none).2
      (by decide) (by decide)).1⟩

/-! ### C4 -/

/-- Counterexample to C4 as stated: a stack-relative address whose offset is
an additive expression with no integer operand.  The claim says the access
falls back to the unknown-pointer path of §4.9, which always emits an
`Existence` constraint; but the store dispatch marks the access as handled
by `_store_to_stack` (which performs no write and emits nothing), and the
load proceeds on the stack path and synthesizes a stack variable at an
unresolved key — in neither direction is an `Existence` constraint emitted
or a derived `Load`/`Store` type variable produced. -/
theorem c4_counterexample :
    (AExpr.opaq 0).isIntE = false ∧ (AExpr.opaq 1).isIntE = false ∧
    (vrStore s0
        ⟨⟨64, .stackAddrK (some ⟨.add (.opaq 0) (.opaq 1), none⟩), []⟩, none, none, []⟩
        ⟨⟨32, .topK, []⟩, none, none, []⟩ 4 none).typeConstraints = [] ∧
    (vrStore s0
        ⟨⟨64, .stackAddrK (some ⟨.add (.opaq 0) (.opaq 1), none⟩), []⟩, none, none, []⟩
        ⟨⟨32, .topK, []⟩, none, none, []⟩ 4 none).stackRegion = s0.stackRegion ∧
    (vrLoad s0
        ⟨⟨64, .stackAddrK (some ⟨.add (.opaq 0) (.opaq 1), none⟩), []⟩, none, none, []⟩
        4 none).2.typeConstraints = [] ∧
    (vrLoad s0
        ⟨⟨64, .stackAddrK (some ⟨.add (.opaq 0) (.opaq 1), none⟩), []⟩, none, none, []⟩
        4 none).1 =
      some ⟨⟨32, .topK, [(.intE 0, SimVariable.stackV .noneE 4 (some 0) 4194304)]⟩,
        some (SimVariable.stackV .noneE 4 (some 0) 4194304),
        some (.base ⟨0⟩), []⟩ := by
  refine ⟨rfl, rfl, ?_, ?_, ?_, ?_⟩ <;> decide

/-- C4 (amended): when a stack-relative offset is an additive expression
with no extractable concrete part, resolution fails softly in the sense that
no error is raised, but the access does NOT fall back to the §4.9 derived
type-variable path.  A store is dispatched to the stack path, which performs
no region write, emits no constraint, binds no type variable and records no
event (at most the stack identifier counter advances); a load stays on the
stack path too, synthesizes (or reuses) a stack variable under an unresolved
key and returns it with a plain fresh type variable, emitting no
`Existence` constraint.  Only a failed stack-offset extraction or a
non-stack address reaches the §4.9 path. -/
theorem c4_no_concrete_part_soft (s : VRState) (dataR : RichR) (size : Nat)
    (stmt expr : Option Nat) (a b : AExpr) (bits : Nat)
    (ann : List (AExpr × SimVariable)) (av : Option SimVariable)
    (atv : Option TypeVar) (atc : List TypeConstraint)
    (ha : a.isIntE = false) (hb : b.isIntE = false)
    (hdel : s.delayedTypeConstraints = []) (htvs : s.typevars = ⟨[]⟩) :
    ((vrStore s ⟨⟨bits, .stackAddrK (some ⟨.add a b, none⟩), ann⟩, av, atv, atc⟩
        dataR size stmt).typeConstraints = s.typeConstraints ∧
      (vrStore s ⟨⟨bits, .stackAddrK (some ⟨.add a b, none⟩), ann⟩, av, atv, atc⟩
        dataR size stmt).stackRegion = s.stackRegion ∧
      (vrStore s ⟨⟨bits, .stackAddrK (some ⟨.add a b, none⟩), ann⟩, av, atv, atc⟩
        dataR size stmt).registerRegion = s.registerRegion ∧
      (vrStore s ⟨⟨bits, .stackAddrK (some ⟨.add a b, none⟩), ann⟩, av, atv, atc⟩
        dataR size stmt).globalRegion = s.globalRegion ∧
      (vrStore s ⟨⟨bits, .stackAddrK (some ⟨.add a b, none⟩), ann⟩, av, atv, atc⟩
        dataR size stmt).typevars = s.typevars ∧
      (vrStore s ⟨⟨bits, .stackAddrK (some ⟨.add a b, none⟩), ann⟩, av, atv, atc⟩
        dataR size stmt).vmFunc.events = s.vmFunc.events) ∧
    ((vrLoad s ⟨⟨bits, .stackAddrK (some ⟨.add a b, none⟩), ann⟩, av, atv, atc⟩
        size expr).2.typeConstraints = s.typeConstraints ∧
      (vrLoad s ⟨⟨bits, .stackAddrK (some ⟨.add a b, none⟩), ann⟩, av, atv, atc⟩
        size expr).1 =
        some ⟨⟨size * s.arch.byteWidth, .topK,
            [(.intE 0, SimVariable.stackV .noneE size (some s.vmFunc.stackCtr)
              s.funcAddr)]⟩,
          some (SimVariable.stackV .noneE size (some s.vmFunc.stackCtr) s.funcAddr),
          some (.base ⟨s.tvCtr⟩), []⟩) := by
  constructor
  · cases hev : s.vmFunc.findByStmt s.blockAddr s.stmtIdx VarSort.memory with
    | nil =>
      cases stmt with
      | none =>
        simp [vrStore, vrStoreToStack, VRState.isStackAddress,
          VRState.getStackOffset, PotOffset.asPyInt, hev, FuncVM.nextIdent,
          FuncVM.setVar]
      | some atm =>
        cases hev2 : s.vmFunc.findByAtom s.blockAddr s.stmtIdx (some atm) with
        | nil =>
          simp [vrStore, vrStoreToStack, VRState.isStackAddress,
            VRState.getStackOffset, PotOffset.asPyInt, hev2, FuncVM.nextIdent,
            FuncVM.setVar]
        | cons p rest =>
          obtain ⟨v, off⟩ := p
          simp [vrStore, vrStoreToStack, VRState.isStackAddress,
            VRState.getStackOffset, PotOffset.asPyInt, hev2]
    | cons p rest =>
      obtain ⟨v, off⟩ := p
      cases stmt with
      | none =>
        simp [vrStore, vrStoreToStack, VRState.isStackAddress,
          VRState.getStackOffset, PotOffset.asPyInt, hev]
      | some atm =>
        cases hev2 : s.vmFunc.findByAtom s.blockAddr s.stmtIdx (some atm) with
        | nil =>
          simp [vrStore, vrStoreToStack, VRState.isStackAddress,
            VRState.getStackOffset, PotOffset.asPyInt, hev2, FuncVM.nextIdent,
            FuncVM.setVar]
        | cons q rest2 =>
          obtain ⟨v2, off2⟩ := q
          simp [vrStore, vrStoreToStack, VRState.isStackAddress,
            VRState.getStackOffset, PotOffset.asPyInt, hev2]
  · simp [vrLoad, vrLoadStackPart, splitStackOffset, loadOffsetIntoVariable,
      VRState.isStackAddress, VRState.getStackOffset,
      ha, hb, hdel, htvs, AExpr.ofOpt, FuncVM.nextIdent, FuncVM.addVar,
      FuncVM.readFrom, VRState.top, VRState.annotateWithVariables,
      VRState.freshTypeVar, delayedGet, TypeVars.hasFor, TypeVars.add,
      VRState.codeloc, Region.storeVal, collectVars]

/-- Witness for the amended C4 at concrete opaque operands on the pristine
state. -/
theorem c4_no_concrete_part_soft_witness :
    (AExpr.opaq 0).isIntE = false ∧ (AExpr.opaq 1).isIntE = false ∧
    (vrStore s0
        ⟨⟨64, .stackAddrK (some ⟨.add (.opaq 0) (.opaq 1), none⟩), []⟩, none, none, []⟩
        ⟨⟨32, .topK, []⟩, none, none, []⟩ 4 none).typeConstraints =
      s0.typeConstraints :=
  ⟨rfl, rfl,
   ((c4_no_concrete_part_soft s0 ⟨⟨32, .topK, []⟩, none, none, []⟩ 4 none none
      (.opaq 0) (.opaq 1) 64 [] none none [] rfl rfl rfl rfl).1).1⟩

/-! ### C5 -/

/-- Counterexample to C5 as stated: a 4-byte global store to concrete
address 4096 on the pristine state.  The read-back of the window finds the
just-written value annotated with the destination variable, but the engine
records a WRITE event (`write_to`) for it, not a read event: the event log
gains exactly one write event and contains no read event. -/
theorem c5_counterexample :
    (vrStore s0 ⟨⟨64, .concreteK 4096, []⟩, none, none, []⟩
        ⟨⟨32, .topK, []⟩, none, none, []⟩ 4 none).vmGlobal.events =
      [VMEvent.writeE (SimVariable.memV 4096 4 (some 0)) (.intE 0) s0.codeloc none] ∧
    ((vrStore s0 ⟨⟨64, .concreteK 4096, []⟩, none, none, []⟩
        ⟨⟨32, .topK, []⟩, none, none, []⟩ 4 none).vmGlobal.events.filter
      (fun e => e.isRead)) = [] := by
  constructor <;> decide

/-! ### C7 helper lemmas -/

theorem foldRefEvents_typeConstraints (so : Option PotOffset) (cl : CodeLocation)
    (src : Option Nat) (l : List (SimVariable × AExpr)) (s : VRState) :
    (foldRefEvents so cl src l s).typeConstraints = s.typeConstraints := by
  unfold foldRefEvents
  apply foldl_pres
  intro st p
  rfl

theorem foldWriteEventsNorm_typeConstraints (cl : CodeLocation) (stmt : Option Nat)
    (ps : List (AExpr × SimVariable)) (s : VRState) :
    (foldWriteEventsNorm cl stmt ps s).typeConstraints = s.typeConstraints := by
  unfold foldWriteEventsNorm
  apply foldl_pres
  intro st p
  rfl

theorem foldWriteEventsRaw_typeConstraints (cl : CodeLocation) (stmt : Option Nat)
    (ps : List (AExpr × SimVariable)) (s : VRState) :
    (foldWriteEventsRaw cl stmt ps s).typeConstraints = s.typeConstraints := by
  unfold foldWriteEventsRaw
  apply foldl_pres
  intro st p
  rfl

theorem foldGlobalReads_typeConstraints (cl : CodeLocation) (expr : Option Nat)
    (vs : List SimVariable) (s : VRState) :
    (foldGlobalReads cl expr vs s).typeConstraints = s.typeConstraints := by
  unfold foldGlobalReads
  apply foldl_pres
  intro st p
  rfl

theorem regReadCollect_typeConstraints (cl : CodeLocation) (expr : Option Nat)
    (vl : List (List AValue)) (acc : List SimVariable × VRState) :
    (regReadCollect cl expr vl acc).2.typeConstraints = acc.2.typeConstraints :=
  regReadCollect_pres _ _ (fun a => a.2.typeConstraints) (fun _ _ => rfl) vl acc

theorem grows_self (l : List TypeConstraint) : ∃ t, l = l ++ t :=
  ⟨[], (List.append_nil l).symm⟩

theorem grows_append (l t : List TypeConstraint) : ∃ t', l ++ t = l ++ t' :=
  ⟨t, rfl⟩

theorem grows_append2 (l t1 t2 : List TypeConstraint) :
    ∃ t, (l ++ t1) ++ t2 = l ++ t :=
  ⟨t1 ++ t2, List.append_assoc l t1 t2⟩

/-- `_reference` emits no type constraints at all. -/
theorem vrReference_typeConstraints (s : VRState) (richr : RichR)
    (cl : CodeLocation) (src : Option Nat) :
    (vrReference s richr cl src).typeConstraints = s.typeConstraints := by
  simp only [vrReference]
  split
  · repeat' split
    all_goals simp [foldRefEvents_typeConstraints, VRState.freshTypeVar]
  · rfl

theorem vrStoreToVariable_grows (s : VRState) (richrAddr : RichR) (size : Nat)
    (stmt : Option Nat) :
    ∃ t, (vrStoreToVariable s richrAddr size stmt).typeConstraints =
      s.typeConstraints ++ t := by
  simp only [vrStoreToVariable]
  repeat' split
  all_goals
    simp [VRState.addTypeConstraint, VRState.freshTypeVar,
      addAllConstraints_typeConstraints]

theorem vrStoreToStack_grows (s : VRState) (stackOffset : PotOffset) (dataR : RichR)
    (size : Nat) (stmt : Option Nat) :
    ∃ t, (vrStoreToStack s stackOffset dataR size stmt).typeConstraints =
      s.typeConstraints ++ t := by
  simp only [vrStoreToStack]
  repeat' split
  all_goals
    simp [VRState.addTypeConstraint, VRState.freshTypeVar,
      foldWriteEventsNorm_typeConstraints]

theorem vrStoreToGlobal_grows (s : VRState) (addr : Int) (dataR : RichR)
    (size : Nat) (stmt : Option Nat) :
    ∃ t, (vrStoreToGlobal s addr dataR size stmt).typeConstraints =
      s.typeConstraints ++ t := by
  simp only [vrStoreToGlobal]
  repeat' split
  all_goals
    simp [VRState.addTypeConstraint, VRState.freshTypeVar,
      foldWriteEventsRaw_typeConstraints]

theorem vrStore_grows (s : VRState) (richrAddr dataR : RichR) (size : Nat)
    (stmt : Option Nat) :
    ∃ t, (vrStore s richrAddr dataR size stmt).typeConstraints =
      s.typeConstraints ++ t := by
  simp only [vrStore]
  repeat' split
  all_goals
    first
      | exact vrStoreToGlobal_grows _ _ _ _ _
      | exact vrStoreToStack_grows _ _ _ _ _
      | exact vrStoreToVariable_grows _ _ _ _

theorem vrLoadGlobalPart_typeConstraints (s : VRState) (addrV : Int) (size : Nat)
    (expr : Option Nat) (cl : CodeLocation) :
    (vrLoadGlobalPart s addrV size expr cl).typeConstraints = s.typeConstraints := by
  simp only [vrLoadGlobalPart]
  repeat' split
  all_goals simp [foldGlobalReads_typeConstraints]

theorem vrLoadPointerPart_grows (s : VRState) (richrAddr : RichR) (size : Nat) :
    ∃ t, (vrLoadPointerPart s richrAddr size).2.typeConstraints =
      s.typeConstraints ++ t := by
  simp only [vrLoadPointerPart]
  repeat' split
  all_goals
    simp [VRState.addTypeConstraint, addAllConstraints_typeConstraints]

theorem vrLoadStackPart_grows (s : VRState) (po : PotOffset) (size : Nat)
    (expr : Option Nat) (cl : CodeLocation) :
    ∃ t, (vrLoadStackPart s po size expr cl).2.typeConstraints =
      s.typeConstraints ++ t := by
  simp only [vrLoadStackPart]
  repeat' split
  all_goals
    simp [VRState.addTypeConstraint, VRState.freshTypeVar,
      addAllConstraints_typeConstraints, FuncVM.readFrom]

theorem vrLoad_grows (s : VRState) (richrAddr : RichR) (size : Nat)
    (expr : Option Nat) :
    ∃ t, (vrLoad s richrAddr size expr).2.typeConstraints =
      s.typeConstraints ++ t := by
  simp only [vrLoad]
  repeat' split
  · exact vrLoadStackPart_grows _ _ _ _ _
  · exact vrLoadPointerPart_grows _ _ _
  · obtain ⟨t, ht⟩ := vrLoadPointerPart_grows
      (vrLoadGlobalPart s _ size expr ⟨s.blockAddr, s.stmtIdx, s.insAddr⟩)
      richrAddr size
    exact ⟨t, by rw [ht, vrLoadGlobalPart_typeConstraints]⟩
  · exact vrLoadPointerPart_grows _ _ _

theorem vrAssignToRegister_grows (s : VRState) (offset : Int) (richr : RichR)
    (size : Nat) (src dst : Option Nat) :
    ∃ t, (vrAssignToRegister s offset richr size src dst).typeConstraints =
      s.typeConstraints ++ t := by
  simp only [vrAssignToRegister]
  repeat' split
  all_goals
    simp [VRState.addTypeConstraint, VRState.freshTypeVar,
      vrReference_typeConstraints]

theorem vrReadFromRegister_grows (s : VRState) (offset : Int) (size : Nat)
    (expr : Option Nat) :
    ∃ t, (vrReadFromRegister s offset size expr).2.typeConstraints =
      s.typeConstraints ++ t := by
  simp only [vrReadFromRegister]
  repeat' split
  all_goals
    simp [VRState.addTypeConstraint, VRState.freshTypeVar,
      addAllConstraints_typeConstraints, regReadCollect_typeConstraints]

/-! ### C7 -/

/-- C7: for every engine operation — register write, memory store (all
three dispatch paths), memory load, register read, and address-taken
reference — the type-constraint set only grows: the new constraint set is
the old one with a (possibly empty) suffix appended, so no previously added
`Subtype` or `Existence` constraint is ever removed. -/
theorem c7_constraints_append_only :
    (∀ (s : VRState) (offset : Int) (richr : RichR) (size : Nat)
        (src dst : Option Nat),
      ∃ t, (vrAssignToRegister s offset richr size src dst).typeConstraints =
        s.typeConstraints ++ t) ∧
    (∀ (s : VRState) (richrAddr dataR : RichR) (size : Nat) (stmt : Option Nat),
      ∃ t, (vrStore s richrAddr dataR size stmt).typeConstraints =
        s.typeConstraints ++ t) ∧
    (∀ (s : VRState) (so : PotOffset) (dataR : RichR) (size : Nat)
        (stmt : Option Nat),
      ∃ t, (vrStoreToStack s so dataR size stmt).typeConstraints =
        s.typeConstraints ++ t) ∧
    (∀ (s : VRState) (addr : Int) (dataR : RichR) (size : Nat) (stmt : Option Nat),
      ∃ t, (vrStoreToGlobal s addr dataR size stmt).typeConstraints =
        s.typeConstraints ++ t) ∧
    (∀ (s : VRState) (richrAddr : RichR) (size : Nat) (stmt : Option Nat),
      ∃ t, (vrStoreToVariable s richrAddr size stmt).typeConstraints =
        s.typeConstraints ++ t) ∧
    (∀ (s : VRState) (richrAddr : RichR) (size : Nat) (expr : Option Nat),
      ∃ t, (vrLoad s richrAddr size expr).2.typeConstraints =
        s.typeConstraints ++ t) ∧
    (∀ (s : VRState) (offset : Int) (size : Nat) (expr : Option Nat),
      ∃ t, (vrReadFromRegister s offset size expr).2.typeConstraints =
        s.typeConstraints ++ t) ∧
    (∀ (s : VRState) (richr : RichR) (cl : CodeLocation) (src : Option Nat),
      ∃ t, (vrReference s richr cl src).typeConstraints =
        s.typeConstraints ++ t) :=
  ⟨fun s offset richr size src dst =>
      vrAssignToRegister_grows s offset richr size src dst,
   fun s richrAddr dataR size stmt => vrStore_grows s richrAddr dataR size stmt,
   fun s so dataR size stmt => vrStoreToStack_grows s so dataR size stmt,
   fun s addr dataR size stmt => vrStoreToGlobal_grows s addr dataR size stmt,
   fun s richrAddr size stmt => vrStoreToVariable_grows s richrAddr size stmt,
   fun s richrAddr size expr => vrLoad_grows s richrAddr size expr,
   fun s offset size expr => vrReadFromRegister_grows s offset size expr,
   fun s richr cl src =>
     ⟨[], by rw [vrReference_typeConstraints, List.append_nil]⟩⟩

/-! ### Support lemmas for the general overlap / flush / read-back theorems -/

/-- The most recent type variable attached for a key is the one a subsequent
lookup at that key returns. -/
theorem TypeVars.getFor_add_self (t : TypeVars) (v : Option SimVariable)
    (loc : CodeLocation) (tv : TypeVar) :
    (t.add v loc tv).getFor v loc = some tv := by
  simp [TypeVars.add, TypeVars.getFor]

/-- A key that `has_type_variable_for` reports present has a retrievable
type variable. -/
theorem TypeVars.hasFor_getFor_isSome (t : TypeVars) (v : Option SimVariable)
    (loc : CodeLocation) (h : t.hasFor v loc = true) :
    (t.getFor v loc).isSome = true := by
  unfold TypeVars.hasFor at h
  unfold TypeVars.getFor
  rw [List.any_eq_true] at h
  obtain ⟨e, hm, hp⟩ := h
  rw [Option.isSome_map']
  exact List.find?_isSome.mpr ⟨e, List.mem_reverse.mpr hm, hp⟩

/-- Popping a variable's delayed entry makes the table no longer map it. -/
theorem delayedGet_pop_self (d : List (SimVariable × List TypeConstraint))
    (v : SimVariable) : delayedGet (delayedPop d v) v = none := by
  induction d with
  | nil => rfl
  | cons p d ih =>
    by_cases h : p.1 = v
    · simp [delayedPop, delayedGet, h]
    · simp [delayedPop, delayedGet, h]

/-- Popping one variable's delayed entry leaves every other variable's entry
untouched. -/
theorem delayedGet_pop_ne (d : List (SimVariable × List TypeConstraint))
    (v W : SimVariable) (h : W ≠ v) :
    delayedGet (delayedPop d v) W = delayedGet d W := by
  induction d with
  | nil => rfl
  | cons p d ih =>
    by_cases hp : p.1 = v
    · have hpw : (p.1 == W) = false := by
        simp only [beq_eq_false_iff_ne, ne_eq]
        intro hc
        exact h (by rw [← hc, hp])
      have h1 : (p.1 != v) = false := by simp [hp]
      unfold delayedPop delayedGet
      rw [List.filter_cons]
      simp only [h1, Bool.false_eq_true, if_false]
      rw [List.find?_cons_of_neg _ (by simp [hpw])]
      exact ih
    · by_cases hw : p.1 = W
      · have h1 : (p.1 != v) = true := by simp [hp]
        have h2 : (p.1 == W) = true := by simp [hw]
        unfold delayedPop delayedGet
        rw [List.filter_cons]
        simp only [h1, if_true]
        rw [List.find?_cons_of_pos _ (by simp [h2]),
          List.find?_cons_of_pos _ (by simp [h2])]
      · have h1 : (p.1 != v) = true := by simp [hp]
        have h2 : (p.1 == W) = false := by simp [hw]
        unfold delayedPop delayedGet
        rw [List.filter_cons]
        simp only [h1, if_true]
        rw [List.find?_cons_of_neg _ (by simp [h2]),
          List.find?_cons_of_neg _ (by simp [h2])]
        exact ih

theorem regReadCollect_delayed (cl : CodeLocation) (e : Option Nat)
    (vl : List (List AValue)) (acc : List SimVariable × VRState) :
    (regReadCollect cl e vl acc).2.delayedTypeConstraints =
      acc.2.delayedTypeConstraints :=
  regReadCollect_pres _ _ (fun a => a.2.delayedTypeConstraints) (fun _ _ => rfl) vl acc

theorem regReadCollect_typevars (cl : CodeLocation) (e : Option Nat)
    (vl : List (List AValue)) (acc : List SimVariable × VRState) :
    (regReadCollect cl e vl acc).2.typevars = acc.2.typevars :=
  regReadCollect_pres _ _ (fun a => a.2.typevars) (fun _ _ => rfl) vl acc

theorem regReadCollect_tvCtr (cl : CodeLocation) (e : Option Nat)
    (vl : List (List AValue)) (acc : List SimVariable × VRState) :
    (regReadCollect cl e vl acc).2.tvCtr = acc.2.tvCtr :=
  regReadCollect_pres _ _ (fun a => a.2.tvCtr) (fun _ _ => rfl) vl acc

/-- The variable set accumulated by the collection loop, as a pure function
of the loaded values (the loop's events do not feed back into it). -/
def varSetOf (vl : List (List AValue)) (acc0 : List SimVariable) :
    List SimVariable :=
  vl.foldl
    (fun acc vs =>
      vs.foldl (fun acc v => v.annots.foldl (fun a p => addUniq a p.2) acc) acc)
    acc0

theorem regReadStep_fst_fold (cl : CodeLocation) (e : Option Nat)
    (ps : List (AExpr × SimVariable)) :
    ∀ acc : List SimVariable × VRState,
      (ps.foldl (regReadStep cl e) acc).1 =
        ps.foldl (fun a p => addUniq a p.2) acc.1 := by
  induction ps with
  | nil => intro acc; rfl
  | cons p ps ih =>
    intro acc
    rw [List.foldl_cons, List.foldl_cons, ih]
    rfl

theorem regReadCollect_inner_fst (cl : CodeLocation) (e : Option Nat)
    (vs : List AValue) :
    ∀ acc : List SimVariable × VRState,
      (vs.foldl (fun acc v => v.annots.foldl (regReadStep cl e) acc) acc).1 =
        vs.foldl (fun a v => v.annots.foldl (fun a p => addUniq a p.2) a) acc.1 := by
  induction vs with
  | nil => intro acc; rfl
  | cons v vs ih =>
    intro acc
    rw [List.foldl_cons, List.foldl_cons, ih, regReadStep_fst_fold]

/-- The collected variable set is `varSetOf` of the value list. -/
theorem regReadCollect_fst (cl : CodeLocation) (e : Option Nat)
    (vl : List (List AValue)) :
    ∀ acc : List SimVariable × VRState,
      (regReadCollect cl e vl acc).1 = varSetOf vl acc.1 := by
  induction vl with
  | nil => intro acc; rfl
  | cons vs vl ih =>
    intro acc
    unfold regReadCollect varSetOf
    rw [List.foldl_cons, List.foldl_cons]
    unfold regReadCollect varSetOf at ih
    rw [ih, regReadCollect_inner_fst]

/-- The write-event loop of `_store_to_global` appends exactly one write
event per read-back pair, in order. -/
theorem foldWriteEventsRaw_events (cl : CodeLocation) (stmt : Option Nat)
    (ps : List (AExpr × SimVariable)) :
    ∀ s : VRState, (foldWriteEventsRaw cl stmt ps s).vmGlobal.events =
      s.vmGlobal.events ++ ps.map (fun p => VMEvent.writeE p.2 p.1 cl stmt) := by
  induction ps with
  | nil => intro s; simp [foldWriteEventsRaw]
  | cons p ps ih =>
    intro s
    unfold foldWriteEventsRaw
    rw [List.foldl_cons]
    unfold foldWriteEventsRaw at ih
    rw [ih]
    simp [FuncVM.writeTo]

/-- The write-event loop of `_store_to_global` records no read events. -/
theorem foldWriteEventsRaw_no_reads (cl : CodeLocation) (stmt : Option Nat)
    (ps : List (AExpr × SimVariable)) (s : VRState) :
    (foldWriteEventsRaw cl stmt ps s).vmGlobal.events.filter
        (fun e => e.isRead) =
      s.vmGlobal.events.filter (fun e => e.isRead) := by
  rw [foldWriteEventsRaw_events, List.filter_append]
  have : (ps.map (fun p => VMEvent.writeE p.2 p.1 cl stmt)).filter
      (fun e => e.isRead) = [] := by
    rw [List.filter_eq_nil_iff]
    intro a ha
    obtain ⟨p, _, rfl⟩ := List.mem_map.mp ha
    simp [VMEvent.isRead]
  rw [this, List.append_nil]

theorem addAllConstraints_typevars (cs : List TypeConstraint) (s : VRState) :
    (addAllConstraints s cs).typevars = s.typevars :=
  (addAllConstraints_fields cs s).2.2.2.1

theorem addAllConstraints_delayed (cs : List TypeConstraint) (s : VRState) :
    (addAllConstraints s cs).delayedTypeConstraints = s.delayedTypeConstraints :=
  (addAllConstraints_fields cs s).2.2.2.2.1

theorem addAllConstraints_vmFunc (cs : List TypeConstraint) (s : VRState) :
    (addAllConstraints s cs).vmFunc = s.vmFunc :=
  (addAllConstraints_fields cs s).2.2.2.2.2.1

theorem addAllConstraints_tvCtr (cs : List TypeConstraint) (s : VRState) :
    (addAllConstraints s cs).tvCtr = s.tvCtr :=
  (addAllConstraints_fields cs s).2.2.2.2.2.2.2.1

theorem addAllConstraints_arch (cs : List TypeConstraint) (s : VRState) :
    (addAllConstraints s cs).arch = s.arch :=
  (addAllConstraints_fields cs s).2.2.2.2.2.2.2.2

theorem addAllConstraints_stackRegion (cs : List TypeConstraint) (s : VRState) :
    (addAllConstraints s cs).stackRegion = s.stackRegion :=
  (addAllConstraints_fields cs s).1

/-- Full characterization of the stack branch of `_load` whenever the
window load succeeds and discovers at least one annotated variable: the
first pair in iteration order drives the returned variable, the single read
event with its offset-into-variable computation, the delayed-constraint
flush and the type-variable binding, while the returned value is a top of
the access width annotated with the whole discovered set. -/
theorem vrLoadStackPart_spec (s : VRState) (po : PotOffset) (size : Nat)
    (expr : Option Nat) (cl : CodeLocation) (co : AExpr) (dyn : Option AExpr)
    (mv : MultiValues) (offA : AExpr) (A : SimVariable)
    (rest : List (AExpr × SimVariable))
    (hsplit : splitStackOffset po.off = (some co, dyn))
    (hload : s.stackRegion.load (s.stackAddrFromOffset co) size = some mv)
    (hcollect : collectVars mv = (offA, A) :: rest) :
    ∃ r s', vrLoadStackPart s po size expr cl = (some r, s') ∧
      r.var = some A ∧
      r.data.kind = AValKind.topK ∧
      r.data.bits = size * s.arch.byteWidth ∧
      r.data.annots = (offA, A) :: rest ∧
      r.typevar = (if s.typevars.hasFor (some A) cl = true then
        s.typevars.getFor (some A) cl else some (.base ⟨s.tvCtr⟩)) ∧
      r.typevar.isSome = true ∧
      s'.typevars.getFor (some A) cl = r.typevar ∧
      s'.vmFunc.events = s.vmFunc.events ++
        [VMEvent.readE A (loadOffsetIntoVariable dyn offA) cl expr] ∧
      s'.stackRegion = s.stackRegion ∧
      (∀ cs, delayedGet s.delayedTypeConstraints A = some cs →
        s'.typeConstraints = s.typeConstraints ++ cs ∧
        delayedGet s'.delayedTypeConstraints A = none ∧
        (∀ W, W ≠ A → delayedGet s'.delayedTypeConstraints W =
          delayedGet s.delayedTypeConstraints W)) ∧
      (delayedGet s.delayedTypeConstraints A = none →
        s'.typeConstraints = s.typeConstraints ∧
        s'.delayedTypeConstraints = s.delayedTypeConstraints) ∧
      (s.typevars.hasFor (some A) cl = false →
        s'.typevars = s.typevars.add (some A) cl (.base ⟨s.tvCtr⟩)) ∧
      (s.typevars.hasFor (some A) cl = true → s'.typevars = s.typevars) := by
  cases hdg : delayedGet s.delayedTypeConstraints A with
  | some cs =>
    cases hhas : s.typevars.hasFor (some A) cl with
    | false =>
      simp only [vrLoadStackPart, hsplit, hload, hcollect, List.isEmpty_cons,
        Bool.false_eq_true, if_false, hdg, hhas, VRState.freshTypeVar,
        addAllConstraints_typevars, addAllConstraints_delayed,
        addAllConstraints_vmFunc, addAllConstraints_tvCtr,
        addAllConstraints_arch, addAllConstraints_stackRegion,
        addAllConstraints_typeConstraints, VRState.top,
        VRState.annotateWithVariables, FuncVM.readFrom]
      refine ⟨_, _, rfl, rfl, rfl, rfl, rfl, rfl, rfl, ?_, rfl, rfl, ?_, ?_,
        ?_, ?_⟩
      · simp [TypeVars.getFor_add_self]
      · intro cs' hcs'
        obtain rfl : cs = cs' := by injection hcs'
        refine ⟨rfl, by simp [delayedGet_pop_self], ?_⟩
        intro W hW
        simp [delayedGet_pop_ne _ _ _ hW]
      · intro hnone
        exact absurd hnone (by simp)
      · intro _
        rfl
      · intro hc
        exact absurd hc (by simp)
    | true =>
      simp only [vrLoadStackPart, hsplit, hload, hcollect, List.isEmpty_cons,
        Bool.false_eq_true, if_false, hdg, hhas, VRState.freshTypeVar,
        addAllConstraints_typevars, addAllConstraints_delayed,
        addAllConstraints_vmFunc, addAllConstraints_tvCtr,
        addAllConstraints_arch, addAllConstraints_stackRegion,
        addAllConstraints_typeConstraints, VRState.top,
        VRState.annotateWithVariables, FuncVM.readFrom]
      refine ⟨_, _, rfl, rfl, rfl, rfl, rfl, rfl, ?_, rfl, rfl, rfl, ?_, ?_,
        ?_, ?_⟩
      · exact TypeVars.hasFor_getFor_isSome s.typevars (some A) cl hhas
      · intro cs' hcs'
        obtain rfl : cs = cs' := by injection hcs'
        refine ⟨rfl, by simp [delayedGet_pop_self], ?_⟩
        intro W hW
        simp [delayedGet_pop_ne _ _ _ hW]
      · intro hnone
        exact absurd hnone (by simp)
      · intro hc
        exact absurd hc (by simp)
      · intro _
        rfl
  | none =>
    cases hhas : s.typevars.hasFor (some A) cl with
    | false =>
      simp only [vrLoadStackPart, hsplit, hload, hcollect, List.isEmpty_cons,
        Bool.false_eq_true, if_false, hdg, hhas, VRState.freshTypeVar,
        VRState.top, VRState.annotateWithVariables, FuncVM.readFrom]
      refine ⟨_, _, rfl, rfl, rfl, rfl, rfl, rfl, rfl, ?_, rfl, rfl, ?_, ?_,
        ?_, ?_⟩
      · simp [TypeVars.getFor_add_self]
      · intro cs' hcs'
        exact absurd hcs' (by simp)
      · intro _
        exact ⟨rfl, rfl⟩
      · intro _
        rfl
      · intro hc
        exact absurd hc (by simp)
    | true =>
      simp only [vrLoadStackPart, hsplit, hload, hcollect, List.isEmpty_cons,
        Bool.false_eq_true, if_false, hdg, hhas, VRState.freshTypeVar,
        VRState.top, VRState.annotateWithVariables, FuncVM.readFrom]
      refine ⟨_, _, rfl, rfl, rfl, rfl, rfl, rfl, ?_, rfl, rfl, rfl, ?_, ?_,
        ?_, ?_⟩
      · exact TypeVars.hasFor_getFor_isSome s.typevars (some A) cl hhas
      · intro cs' hcs'
        exact absurd hcs' (by simp)
      · intro _
        exact ⟨rfl, rfl⟩
      · intro hc
        exact absurd hc (by simp)
      · intro _
        rfl

/-! ### C2 -/

/-- C2: for every stack memory load whose window-load discovers previously
recorded variables with `A` first in iteration order and `B` also among
them, the returned `RichR`'s variable and type variable correspond to `A` —
exactly one variable, the first encountered, drives the read event and the
offset-into-variable computation — while the returned value is a top value
of the access width annotated with all discovered overlapping variables,
`A` and `B` included. -/
theorem c2_overlap_first_wins (s : VRState) (po : PotOffset) (size : Nat)
    (expr : Option Nat) (bits : Nat) (ann : List (AExpr × SimVariable))
    (av : Option SimVariable) (atv : Option TypeVar) (atc : List TypeConstraint)
    (co : AExpr) (dyn : Option AExpr) (mv : MultiValues) (offA offB : AExpr)
    (A B : SimVariable) (rest : List (AExpr × SimVariable))
    (hsplit : splitStackOffset po.off = (some co, dyn))
    (hload : s.stackRegion.load (s.stackAddrFromOffset co) size = some mv)
    (hcollect : collectVars mv = (offA, A) :: rest)
    (hB : (offB, B) ∈ rest) :
    ∃ r s',
      vrLoad s ⟨⟨bits, .stackAddrK (some po), ann⟩, av, atv, atc⟩ size expr =
        (some r, s') ∧
      r.var = some A ∧
      r.typevar.isSome = true ∧
      s'.typevars.getFor (some A) s.codeloc = r.typevar ∧
      r.data.kind = AValKind.topK ∧
      r.data.bits = size * s.arch.byteWidth ∧
      r.data.annots = (offA, A) :: rest ∧
      (offA, A) ∈ r.data.annots ∧ (offB, B) ∈ r.data.annots ∧
      s'.vmFunc.events = s.vmFunc.events ++
        [VMEvent.readE A (loadOffsetIntoVariable dyn offA) s.codeloc expr] := by
  have hdisp :
      vrLoad s ⟨⟨bits, .stackAddrK (some po), ann⟩, av, atv, atc⟩ size expr =
        vrLoadStackPart s po size expr s.codeloc := by
    simp [vrLoad, VRState.isStackAddress, VRState.getStackOffset, VRState.codeloc]
  obtain ⟨r, s', heq, hvar, hkind, hbits, hannots, _, hsome, hget, hev, _, _, _,
      _, _⟩ :=
    vrLoadStackPart_spec s po size expr s.codeloc co dyn mv offA A rest
      hsplit hload hcollect
  refine ⟨r, s', by rw [hdisp, heq], hvar, hsome, hget, hkind, hbits, hannots,
    ?_, ?_, hev⟩
  · rw [hannots]
    exact List.mem_cons_self _ _
  · rw [hannots]
    exact List.mem_cons_of_mem _ hB

/-- Witness for C2: an 8-byte load at stack offset −16 over two 4-byte
variables recorded at −16 and −12. -/
theorem c2_overlap_first_wins_witness :
    splitStackOffset (AExpr.intE (-16)) = (some (.intE (-16)), none) ∧
    collectVars ⟨[(0, [⟨32, .topK,
        [(.intE 0, SimVariable.stackV (.intE (-16)) 4 (some 7) 4194304)]⟩]),
      (4, [⟨32, .topK,
        [(.intE 0, SimVariable.stackV (.intE (-12)) 4 (some 8) 4194304)]⟩])]⟩ =
      (AExpr.intE 0, SimVariable.stackV (.intE (-16)) 4 (some 7) 4194304) ::
        [(AExpr.intE 0, SimVariable.stackV (.intE (-12)) 4 (some 8) 4194304)] ∧
    (∃ r s',
      vrLoad
        { s0 with stackRegion :=
            ⟨[⟨.intE (-16), 4, [⟨32, .topK,
                [(.intE 0, SimVariable.stackV (.intE (-16)) 4 (some 7) 4194304)]⟩]⟩,
              ⟨.intE (-12), 4, [⟨32, .topK,
                [(.intE 0, SimVariable.stackV (.intE (-12)) 4 (some 8) 4194304)]⟩]⟩]⟩ }
        ⟨⟨64, .stackAddrK (some ⟨.intE (-16), none⟩), []⟩, none, none, []⟩ 8 none =
        (some r, s') ∧
      r.var = some (SimVariable.stackV (.intE (-16)) 4 (some 7) 4194304) ∧
      r.typevar.isSome = true ∧
      s'.typevars.getFor
          (some (SimVariable.stackV (.intE (-16)) 4 (some 7) 4194304))
          ({ s0 with stackRegion :=
            ⟨[⟨.intE (-16), 4, [⟨32, .topK,
                [(.intE 0, SimVariable.stackV (.intE (-16)) 4 (some 7) 4194304)]⟩]⟩,
              ⟨.intE (-12), 4, [⟨32, .topK,
                [(.intE 0, SimVariable.stackV (.intE (-12)) 4 (some 8) 4194304)]⟩]⟩]⟩ }
            : VRState).codeloc = r.typevar ∧
      r.data.kind = AValKind.topK ∧
      r.data.bits = 8 * ({ s0 with stackRegion :=
            ⟨[⟨.intE (-16), 4, [⟨32, .topK,
                [(.intE 0, SimVariable.stackV (.intE (-16)) 4 (some 7) 4194304)]⟩]⟩,
              ⟨.intE (-12), 4, [⟨32, .topK,
                [(.intE 0, SimVariable.stackV (.intE (-12)) 4 (some 8) 4194304)]⟩]⟩]⟩ }
            : VRState).arch.byteWidth ∧
      r.data.annots =
        (AExpr.intE 0, SimVariable.stackV (.intE (-16)) 4 (some 7) 4194304) ::
          [(AExpr.intE 0, SimVariable.stackV (.intE (-12)) 4 (some 8) 4194304)] ∧
      (AExpr.intE 0, SimVariable.stackV (.intE (-16)) 4 (some 7) 4194304) ∈
        r.data.annots ∧
      (AExpr.intE 0, SimVariable.stackV (.intE (-12)) 4 (some 8) 4194304) ∈
        r.data.annots ∧
      s'.vmFunc.events =
        ({ s0 with stackRegion :=
            ⟨[⟨.intE (-16), 4, [⟨32, .topK,
                [(.intE 0, SimVariable.stackV (.intE (-16)) 4 (some 7) 4194304)]⟩]⟩,
              ⟨.intE (-12), 4, [⟨32, .topK,
                [(.intE 0, SimVariable.stackV (.intE (-12)) 4 (some 8) 4194304)]⟩]⟩]⟩ }
          : VRState).vmFunc.events ++
          [VMEvent.readE (SimVariable.stackV (.intE (-16)) 4 (some 7) 4194304)
            (loadOffsetIntoVariable none (AExpr.intE 0))
            ({ s0 with stackRegion :=
              ⟨[⟨.intE (-16), 4, [⟨32, .topK,
                  [(.intE 0, SimVariable.stackV (.intE (-16)) 4 (some 7) 4194304)]⟩]⟩,
                ⟨.intE (-12), 4, [⟨32, .topK,
                  [(.intE 0, SimVariable.stackV (.intE (-12)) 4 (some 8) 4194304)]⟩]⟩]⟩ }
              : VRState).codeloc none]) :=
  ⟨by decide, by decide,
   c2_overlap_first_wins
     { s0 with stackRegion :=
         ⟨[⟨.intE (-16), 4, [⟨32, .topK,
             [(.intE 0, SimVariable.stackV (.intE (-16)) 4 (some 7) 4194304)]⟩]⟩,
           ⟨.intE (-12), 4, [⟨32, .topK,
             [(.intE 0, SimVariable.stackV (.intE (-12)) 4 (some 8) 4194304)]⟩]⟩]⟩ }
     ⟨.intE (-16), none⟩ 8 none 64 [] none none []
     (.intE (-16)) none
     ⟨[(0, [⟨32, .topK,
         [(.intE 0, SimVariable.stackV (.intE (-16)) 4 (some 7) 4194304)]⟩]),
       (4, [⟨32, .topK,
         [(.intE 0, SimVariable.stackV (.intE (-12)) 4 (some 8) 4194304)]⟩])]⟩
     (AExpr.intE 0) (AExpr.intE 0)
     (SimVariable.stackV (.intE (-16)) 4 (some 7) 4194304)
     (SimVariable.stackV (.intE (-12)) 4 (some 8) 4194304)
     [(AExpr.intE 0, SimVariable.stackV (.intE (-12)) 4 (some 8) 4194304)]
     (by decide) (by decide) (by decide) (by decide)⟩

theorem regReadCollect_arch (cl : CodeLocation) (e : Option Nat)
    (vl : List (List AValue)) (acc : List SimVariable × VRState) :
    (regReadCollect cl e vl acc).2.arch = acc.2.arch :=
  regReadCollect_pres _ _ (fun a => a.2.arch) (fun _ _ => rfl) vl acc

/-- Characterization of the delayed-constraint flush and the type-variable
binding of `_read_from_register` whenever the register load succeeds, the
collected variable set is non-empty with `V` first, and the offset is not
artificial/sp/bp: `V`'s delayed entry (if any) is appended to the constraint
set and popped — every other variable's entry untouched — and `V`'s type
variable is then bound fresh or reused. -/
theorem vrReadFromRegister_spec (s : VRState) (offset : Int) (size : Nat)
    (expr : Option Nat) (mv : MultiValues) (V : SimVariable)
    (rest : List SimVariable)
    (hload : s.registerRegion.load (AExpr.intE offset) size = some mv)
    (hsel : varSetOf (mv.values.map (fun p => p.2)) [] = V :: rest)
    (hguard : (s.arch.isArtificialRegister offset size ||
        offset == s.arch.spOffset || offset == s.arch.bpOffset) = false) :
    (∀ cs, delayedGet s.delayedTypeConstraints V = some cs →
      (vrReadFromRegister s offset size expr).2.typeConstraints =
        s.typeConstraints ++ cs ∧
      delayedGet
        (vrReadFromRegister s offset size expr).2.delayedTypeConstraints V =
        none ∧
      (∀ W, W ≠ V →
        delayedGet
          (vrReadFromRegister s offset size expr).2.delayedTypeConstraints W =
          delayedGet s.delayedTypeConstraints W)) ∧
    (delayedGet s.delayedTypeConstraints V = none →
      (vrReadFromRegister s offset size expr).2.typeConstraints =
        s.typeConstraints ∧
      (vrReadFromRegister s offset size expr).2.delayedTypeConstraints =
        s.delayedTypeConstraints) ∧
    (s.typevars.hasVar (some V) = false →
      (vrReadFromRegister s offset size expr).2.typevars =
        s.typevars.add (some V) s.codeloc (.base ⟨s.tvCtr⟩)) ∧
    (s.typevars.hasVar (some V) = true →
      (vrReadFromRegister s offset size expr).2.typevars = s.typevars) := by
  cases hdg : delayedGet s.delayedTypeConstraints V with
  | some cs =>
    cases hhas : s.typevars.hasVar (some V) with
    | false =>
      refine ⟨?_, ?_, ?_, ?_⟩
      · intro cs' hcs'
        obtain rfl : cs = cs' := by injection hcs'
        refine ⟨?_, ?_, ?_⟩
        · simp only [vrReadFromRegister, hload, regReadCollect_fst,
            regReadCollect_arch, regReadCollect_delayed, regReadCollect_typevars,
            regReadCollect_tvCtr, regReadCollect_typeConstraints, hsel, hguard,
            Bool.false_eq_true, if_false, hdg, hhas, addAllConstraints_typevars,
            addAllConstraints_delayed, addAllConstraints_tvCtr,
            addAllConstraints_typeConstraints, VRState.freshTypeVar]
          split <;> simp [regReadCollect_typeConstraints, regReadCollect_delayed, regReadCollect_typevars]
        · simp only [vrReadFromRegister, hload, regReadCollect_fst,
            regReadCollect_arch, regReadCollect_delayed, regReadCollect_typevars,
            regReadCollect_tvCtr, regReadCollect_typeConstraints, hsel, hguard,
            Bool.false_eq_true, if_false, hdg, hhas, addAllConstraints_typevars,
            addAllConstraints_delayed, addAllConstraints_tvCtr,
            addAllConstraints_typeConstraints, VRState.freshTypeVar]
          split <;> simp [delayedGet_pop_self, regReadCollect_delayed]
        · intro W hW
          simp only [vrReadFromRegister, hload, regReadCollect_fst,
            regReadCollect_arch, regReadCollect_delayed, regReadCollect_typevars,
            regReadCollect_tvCtr, regReadCollect_typeConstraints, hsel, hguard,
            Bool.false_eq_true, if_false, hdg, hhas, addAllConstraints_typevars,
            addAllConstraints_delayed, addAllConstraints_tvCtr,
            addAllConstraints_typeConstraints, VRState.freshTypeVar]
          split <;> simp [delayedGet_pop_ne _ _ _ hW, regReadCollect_delayed]
      · intro hnone
        exact absurd hnone (by simp)
      · intro _
        simp only [vrReadFromRegister, hload, regReadCollect_fst,
          regReadCollect_arch, regReadCollect_delayed, regReadCollect_typevars,
          regReadCollect_tvCtr, regReadCollect_typeConstraints, hsel, hguard,
          Bool.false_eq_true, if_false, hdg, hhas, addAllConstraints_typevars,
          addAllConstraints_delayed, addAllConstraints_tvCtr,
          addAllConstraints_typeConstraints, VRState.freshTypeVar]
        split <;> simp [regReadCollect_typeConstraints, regReadCollect_delayed, regReadCollect_typevars]
      · intro hc
        exact absurd hc (by simp)
    | true =>
      refine ⟨?_, ?_, ?_, ?_⟩
      · intro cs' hcs'
        obtain rfl : cs = cs' := by injection hcs'
        refine ⟨?_, ?_, ?_⟩
        · simp only [vrReadFromRegister, hload, regReadCollect_fst,
            regReadCollect_arch, regReadCollect_delayed, regReadCollect_typevars,
            regReadCollect_tvCtr, regReadCollect_typeConstraints, hsel, hguard,
            Bool.false_eq_true, if_false, hdg, hhas, addAllConstraints_typevars,
            addAllConstraints_delayed, addAllConstraints_tvCtr,
            addAllConstraints_typeConstraints, VRState.freshTypeVar]
          split <;> simp [regReadCollect_typeConstraints, regReadCollect_delayed, regReadCollect_typevars]
        · simp only [vrReadFromRegister, hload, regReadCollect_fst,
            regReadCollect_arch, regReadCollect_delayed, regReadCollect_typevars,
            regReadCollect_tvCtr, regReadCollect_typeConstraints, hsel, hguard,
            Bool.false_eq_true, if_false, hdg, hhas, addAllConstraints_typevars,
            addAllConstraints_delayed, addAllConstraints_tvCtr,
            addAllConstraints_typeConstraints, VRState.freshTypeVar]
          split <;> simp [delayedGet_pop_self, regReadCollect_delayed]
        · intro W hW
          simp only [vrReadFromRegister, hload, regReadCollect_fst,
            regReadCollect_arch, regReadCollect_delayed, regReadCollect_typevars,
            regReadCollect_tvCtr, regReadCollect_typeConstraints, hsel, hguard,
            Bool.false_eq_true, if_false, hdg, hhas, addAllConstraints_typevars,
            addAllConstraints_delayed, addAllConstraints_tvCtr,
            addAllConstraints_typeConstraints, VRState.freshTypeVar]
          split <;> simp [delayedGet_pop_ne _ _ _ hW, regReadCollect_delayed]
      · intro hnone
        exact absurd hnone (by simp)
      · intro hc
        exact absurd hc (by simp)
      · intro _
        simp only [vrReadFromRegister, hload, regReadCollect_fst,
          regReadCollect_arch, regReadCollect_delayed, regReadCollect_typevars,
          regReadCollect_tvCtr, regReadCollect_typeConstraints, hsel, hguard,
          Bool.false_eq_true, if_false, hdg, hhas, addAllConstraints_typevars,
          addAllConstraints_delayed, addAllConstraints_tvCtr,
          addAllConstraints_typeConstraints, VRState.freshTypeVar]
        split <;> simp [regReadCollect_typeConstraints, regReadCollect_delayed, regReadCollect_typevars]
  | none =>
    cases hhas : s.typevars.hasVar (some V) with
    | false =>
      refine ⟨?_, ?_, ?_, ?_⟩
      · intro cs' hcs'
        exact absurd hcs' (by simp)
      · intro _
        constructor <;>
        · simp only [vrReadFromRegister, hload, regReadCollect_fst,
            regReadCollect_arch, regReadCollect_delayed, regReadCollect_typevars,
            regReadCollect_tvCtr, regReadCollect_typeConstraints, hsel, hguard,
            Bool.false_eq_true, if_false, hdg, hhas, VRState.freshTypeVar]
          split <;> simp [regReadCollect_typeConstraints, regReadCollect_delayed, regReadCollect_typevars]
      · intro _
        simp only [vrReadFromRegister, hload, regReadCollect_fst,
          regReadCollect_arch, regReadCollect_delayed, regReadCollect_typevars,
          regReadCollect_tvCtr, regReadCollect_typeConstraints, hsel, hguard,
          Bool.false_eq_true, if_false, hdg, hhas, VRState.freshTypeVar]
        split <;> simp [regReadCollect_typeConstraints, regReadCollect_delayed, regReadCollect_typevars]
      · intro hc
        exact absurd hc (by simp)
    | true =>
      refine ⟨?_, ?_, ?_, ?_⟩
      · intro cs' hcs'
        exact absurd hcs' (by simp)
      · intro _
        constructor <;>
        · simp only [vrReadFromRegister, hload, regReadCollect_fst,
            regReadCollect_arch, regReadCollect_delayed, regReadCollect_typevars,
            regReadCollect_tvCtr, regReadCollect_typeConstraints, hsel, hguard,
            Bool.false_eq_true, if_false, hdg, hhas, VRState.freshTypeVar]
          split <;> simp [regReadCollect_typeConstraints, regReadCollect_delayed, regReadCollect_typevars]
      · intro hc
        exact absurd hc (by simp)
      · intro _
        simp only [vrReadFromRegister, hload, regReadCollect_fst,
          regReadCollect_arch, regReadCollect_delayed, regReadCollect_typevars,
          regReadCollect_tvCtr, regReadCollect_typeConstraints, hsel, hguard,
          Bool.false_eq_true, if_false, hdg, hhas, VRState.freshTypeVar]
        split <;> simp [regReadCollect_typeConstraints, regReadCollect_delayed, regReadCollect_typevars]

/-! ### C6 -/

/-- C6: whenever a register read or a stack memory load selects a variable
with an entry in the delayed-type-constraints table, every constraint of
that entry is appended to the constraint set, the table entry for that
variable is removed while every other variable's entry is untouched, and
the selected variable's type variable is then bound fresh (or the existing
binding reused, leaving the store unchanged). -/
theorem c6_delayed_flush :
    (∀ (s : VRState) (offset : Int) (size : Nat) (expr : Option Nat)
        (mv : MultiValues) (V : SimVariable) (rest : List SimVariable)
        (cs : List TypeConstraint),
      s.registerRegion.load (AExpr.intE offset) size = some mv →
      varSetOf (mv.values.map (fun p => p.2)) [] = V :: rest →
      (s.arch.isArtificialRegister offset size ||
        offset == s.arch.spOffset || offset == s.arch.bpOffset) = false →
      delayedGet s.delayedTypeConstraints V = some cs →
      (vrReadFromRegister s offset size expr).2.typeConstraints =
        s.typeConstraints ++ cs ∧
      delayedGet
        (vrReadFromRegister s offset size expr).2.delayedTypeConstraints V =
        none ∧
      (∀ W, W ≠ V →
        delayedGet
          (vrReadFromRegister s offset size expr).2.delayedTypeConstraints W =
          delayedGet s.delayedTypeConstraints W) ∧
      (s.typevars.hasVar (some V) = false →
        (vrReadFromRegister s offset size expr).2.typevars =
          s.typevars.add (some V) s.codeloc (.base ⟨s.tvCtr⟩)) ∧
      (s.typevars.hasVar (some V) = true →
        (vrReadFromRegister s offset size expr).2.typevars = s.typevars)) ∧
    (∀ (s : VRState) (po : PotOffset) (size : Nat) (expr : Option Nat)
        (bits : Nat) (ann : List (AExpr × SimVariable)) (av : Option SimVariable)
        (atv : Option TypeVar) (atc : List TypeConstraint) (co : AExpr)
        (dyn : Option AExpr) (mv : MultiValues) (offA : AExpr) (A : SimVariable)
        (rest : List (AExpr × SimVariable)) (cs : List TypeConstraint),
      splitStackOffset po.off = (some co, dyn) →
      s.stackRegion.load (s.stackAddrFromOffset co) size = some mv →
      collectVars mv = (offA, A) :: rest →
      delayedGet s.delayedTypeConstraints A = some cs →
      (vrLoad s ⟨⟨bits, .stackAddrK (some po), ann⟩, av, atv, atc⟩ size
          expr).2.typeConstraints = s.typeConstraints ++ cs ∧
      delayedGet
        (vrLoad s ⟨⟨bits, .stackAddrK (some po), ann⟩, av, atv, atc⟩ size
          expr).2.delayedTypeConstraints A = none ∧
      (∀ W, W ≠ A →
        delayedGet
          (vrLoad s ⟨⟨bits, .stackAddrK (some po), ann⟩, av, atv, atc⟩ size
            expr).2.delayedTypeConstraints W =
          delayedGet s.delayedTypeConstraints W) ∧
      (s.typevars.hasFor (some A) s.codeloc = false →
        (vrLoad s ⟨⟨bits, .stackAddrK (some po), ann⟩, av, atv, atc⟩ size
          expr).2.typevars =
          s.typevars.add (some A) s.codeloc (.base ⟨s.tvCtr⟩)) ∧
      (s.typevars.hasFor (some A) s.codeloc = true →
        (vrLoad s ⟨⟨bits, .stackAddrK (some po), ann⟩, av, atv, atc⟩ size
          expr).2.typevars = s.typevars)) := by
  constructor
  · intro s offset size expr mv V rest cs hload hsel hguard hdg
    obtain ⟨hsome, _, hbF, hbT⟩ :=
      vrReadFromRegister_spec s offset size expr mv V rest hload hsel hguard
    obtain ⟨h1, h2, h3⟩ := hsome cs hdg
    exact ⟨h1, h2, h3, hbF, hbT⟩
  · intro s po size expr bits ann av atv atc co dyn mv offA A rest cs
      hsplit hload hcollect hdg
    have hdisp :
        vrLoad s ⟨⟨bits, .stackAddrK (some po), ann⟩, av, atv, atc⟩ size expr =
          vrLoadStackPart s po size expr s.codeloc := by
      simp [vrLoad, VRState.isStackAddress, VRState.getStackOffset,
        VRState.codeloc]
    obtain ⟨r, s', heq, _, _, _, _, _, _, _, _, _, hfS, _, hbF, hbT⟩ :=
      vrLoadStackPart_spec s po size expr s.codeloc co dyn mv offA A rest
        hsplit hload hcollect
    obtain ⟨h1, h2, h3⟩ := hfS cs hdg
    rw [hdisp, heq]
    exact ⟨h1, h2, h3, hbF, hbT⟩

/-- Witness for C6 at two concrete fixtures: a register read at offset 16
and a 4-byte stack load at offset −16, each selecting a variable with a
one-constraint delayed entry. -/
theorem c6_delayed_flush_witness :
    delayedGet
        [(SimVariable.stackV (.intE (-16)) 4 (some 7) 4194304,
          [TypeConstraint.existenceC (.base ⟨99⟩)])]
        (SimVariable.stackV (.intE (-16)) 4 (some 7) 4194304) =
      some [TypeConstraint.existenceC (.base ⟨99⟩)] ∧
    (vrReadFromRegister
        { s0 with
          registerRegion := ⟨[⟨.intE 16, 4, [⟨32, .topK,
            [(.intE 0, SimVariable.stackV (.intE (-16)) 4 (some 7) 4194304)]⟩]⟩]⟩,
          delayedTypeConstraints :=
            [(SimVariable.stackV (.intE (-16)) 4 (some 7) 4194304,
              [TypeConstraint.existenceC (.base ⟨99⟩)])] }
        16 4 none).2.typeConstraints =
      ({ s0 with
          registerRegion := ⟨[⟨.intE 16, 4, [⟨32, .topK,
            [(.intE 0, SimVariable.stackV (.intE (-16)) 4 (some 7) 4194304)]⟩]⟩]⟩,
          delayedTypeConstraints :=
            [(SimVariable.stackV (.intE (-16)) 4 (some 7) 4194304,
              [TypeConstraint.existenceC (.base ⟨99⟩)])] } : VRState).typeConstraints ++
        [TypeConstraint.existenceC (.base ⟨99⟩)] ∧
    (vrLoad
        { s0 with
          stackRegion := ⟨[⟨.intE (-16), 4, [⟨32, .topK,
            [(.intE 0, SimVariable.stackV (.intE (-16)) 4 (some 7) 4194304)]⟩]⟩]⟩,
          delayedTypeConstraints :=
            [(SimVariable.stackV (.intE (-16)) 4 (some 7) 4194304,
              [TypeConstraint.existenceC (.base ⟨99⟩)])] }
        ⟨⟨64, .stackAddrK (some ⟨.intE (-16), none⟩), []⟩, none, none, []⟩
        4 none).2.typeConstraints =
      ({ s0 with
          stackRegion := ⟨[⟨.intE (-16), 4, [⟨32, .topK,
            [(.intE 0, SimVariable.stackV (.intE (-16)) 4 (some 7) 4194304)]⟩]⟩]⟩,
          delayedTypeConstraints :=
            [(SimVariable.stackV (.intE (-16)) 4 (some 7) 4194304,
              [TypeConstraint.existenceC (.base ⟨99⟩)])] } : VRState).typeConstraints ++
        [TypeConstraint.existenceC (.base ⟨99⟩)] :=
  ⟨by decide,
   (c6_delayed_flush.1
     { s0 with
        registerRegion := ⟨[⟨.intE 16, 4, [⟨32, .topK,
          [(.intE 0, SimVariable.stackV (.intE (-16)) 4 (some 7) 4194304)]⟩]⟩]⟩,
        delayedTypeConstraints :=
          [(SimVariable.stackV (.intE (-16)) 4 (some 7) 4194304,
            [TypeConstraint.existenceC (.base ⟨99⟩)])] }
     16 4 none ⟨[(0, [⟨32, .topK,
       [(.intE 0, SimVariable.stackV (.intE (-16)) 4 (some 7) 4194304)]⟩])]⟩
     (SimVariable.stackV (.intE (-16)) 4 (some 7) 4194304) []
     [TypeConstraint.existenceC (.base ⟨99⟩)]
     (by decide) (by decide) (by decide) (by decide)).1,
   (c6_delayed_flush.2
     { s0 with
        stackRegion := ⟨[⟨.intE (-16), 4, [⟨32, .topK,
          [(.intE 0, SimVariable.stackV (.intE (-16)) 4 (some 7) 4194304)]⟩]⟩]⟩,
        delayedTypeConstraints :=
          [(SimVariable.stackV (.intE (-16)) 4 (some 7) 4194304,
            [TypeConstraint.existenceC (.base ⟨99⟩)])] }
     ⟨.intE (-16), none⟩ 4 none 64 [] none none [] (.intE (-16)) none
     ⟨[(0, [⟨32, .topK,
       [(.intE 0, SimVariable.stackV (.intE (-16)) 4 (some 7) 4194304)]⟩])]⟩
     (AExpr.intE 0) (SimVariable.stackV (.intE (-16)) 4 (some 7) 4194304) []
     [TypeConstraint.existenceC (.base ⟨99⟩)]
     (by decide) (by decide) (by decide) (by decide)).1⟩

/-! ### C5 (amended, general) -/

/-- The destination-variable selection of `_store_to_global` (lookup by
statement or atom, or a fresh global variable with the next identifier). -/
def globalDestVar (s : VRState) (addr : Int) (size : Nat) (stmt : Option Nat) :
    SimVariable :=
  match (match stmt with
    | none => s.vmGlobal.findByStmt s.blockAddr s.stmtIdx VarSort.memory
    | some a => s.vmGlobal.findByAtom s.blockAddr s.stmtIdx (some a)) with
  | [] => SimVariable.memV addr size (some s.vmGlobal.globCtr)
  | (v, _) :: _ => v

/-- The variables discovered by the immediate window read-back of
`_store_to_global`: the global region after the annotated write is loaded
over the stored window and its variable annotations collected. -/
def globalReadBack (s : VRState) (addr : Int) (dataR : RichR) (size : Nat)
    (stmt : Option Nat) : List (AExpr × SimVariable) :=
  let dataExpr := s.annotateWithVariables dataR.data
    [(AExpr.intE 0, globalDestVar s addr size stmt)]
  match (s.globalRegion.storeVal (AExpr.intE addr) dataExpr
      s.arch.byteWidth).load (AExpr.intE addr) size with
  | some vs => collectVars vs
  | none => []

/-- The write-event loop of `_store_to_global` leaves the global region
untouched. -/
theorem foldWriteEventsRaw_globalRegion (cl : CodeLocation) (stmt : Option Nat)
    (ps : List (AExpr × SimVariable)) (st : VRState) :
    (foldWriteEventsRaw cl stmt ps st).globalRegion = st.globalRegion := by
  unfold foldWriteEventsRaw
  apply foldl_pres
  intro a x
  rfl

set_option maxHeartbeats 2000000 in
/-- C5 (amended): on every global store to a concrete absolute address, the
engine writes the annotated value into the global region, immediately reads
the same window back and, for every variable annotated on the values read
back, records a WRITE event — never a read event — against that variable at
this code location. -/
theorem c5_global_store_records_writes (s : VRState) (addrV : Int)
    (dataR : RichR) (size : Nat) (stmt : Option Nat) (bits : Nat)
    (ann : List (AExpr × SimVariable)) (av : Option SimVariable)
    (atv : Option TypeVar) (atc : List TypeConstraint) :
    (vrStore s ⟨⟨bits, .concreteK addrV, ann⟩, av, atv, atc⟩ dataR size
        stmt).globalRegion =
      s.globalRegion.storeVal (AExpr.intE addrV)
        (s.annotateWithVariables dataR.data
          [(AExpr.intE 0, globalDestVar s addrV size stmt)])
        s.arch.byteWidth ∧
    (vrStore s ⟨⟨bits, .concreteK addrV, ann⟩, av, atv, atc⟩ dataR size
        stmt).vmGlobal.events =
      s.vmGlobal.events ++
        (globalReadBack s addrV dataR size stmt).map
          (fun p => VMEvent.writeE p.2 p.1 s.codeloc stmt) ∧
    (vrStore s ⟨⟨bits, .concreteK addrV, ann⟩, av, atv, atc⟩ dataR size
        stmt).vmGlobal.events.filter (fun e => e.isRead) =
      s.vmGlobal.events.filter (fun e => e.isRead) := by
  cases stmt with
  | none =>
    cases hev : s.vmGlobal.findByStmt s.blockAddr s.stmtIdx VarSort.memory with
    | nil =>
      refine ⟨?_, ?_, ?_⟩ <;>
      · simp only [vrStore, vrStoreToGlobal, hev, globalReadBack, globalDestVar,
          FuncVM.nextIdent, FuncVM.setVar, VRState.codeloc,
          VRState.annotateWithVariables]
        repeat' split
        all_goals
          first
            | rfl
            | (simp [foldWriteEventsRaw_events, foldWriteEventsRaw_no_reads,
                foldWriteEventsRaw_globalRegion, VRState.freshTypeVar,
                VRState.addTypeConstraint, FuncVM.setVar, VMEvent.isRead]
               done)
            | (simp_all [foldWriteEventsRaw_events, foldWriteEventsRaw_no_reads,
                foldWriteEventsRaw_globalRegion, VRState.freshTypeVar,
                VRState.addTypeConstraint, FuncVM.setVar, VMEvent.isRead]
               done)
            | (simp [foldWriteEventsRaw_events, foldWriteEventsRaw_no_reads,
                 foldWriteEventsRaw_globalRegion, VRState.freshTypeVar,
                 VRState.addTypeConstraint, FuncVM.setVar, VMEvent.isRead]
               intro a e v hmem he
               subst he
               rfl)
    | cons p rest =>
      obtain ⟨v, off⟩ := p
      refine ⟨?_, ?_, ?_⟩ <;>
      · simp only [vrStore, vrStoreToGlobal, hev, globalReadBack, globalDestVar,
          FuncVM.nextIdent, FuncVM.setVar, VRState.codeloc,
          VRState.annotateWithVariables]
        repeat' split
        all_goals
          first
            | rfl
            | (simp [foldWriteEventsRaw_events, foldWriteEventsRaw_no_reads,
                foldWriteEventsRaw_globalRegion, VRState.freshTypeVar,
                VRState.addTypeConstraint, FuncVM.setVar, VMEvent.isRead]
               done)
            | (simp_all [foldWriteEventsRaw_events, foldWriteEventsRaw_no_reads,
                foldWriteEventsRaw_globalRegion, VRState.freshTypeVar,
                VRState.addTypeConstraint, FuncVM.setVar, VMEvent.isRead]
               done)
            | (simp [foldWriteEventsRaw_events, foldWriteEventsRaw_no_reads,
                 foldWriteEventsRaw_globalRegion, VRState.freshTypeVar,
                 VRState.addTypeConstraint, FuncVM.setVar, VMEvent.isRead]
               intro a e v hmem he
               subst he
               rfl)
  | some atm =>
    cases hev : s.vmGlobal.findByAtom s.blockAddr s.stmtIdx (some atm) with
    | nil =>
      refine ⟨?_, ?_, ?_⟩ <;>
      · simp only [vrStore, vrStoreToGlobal, hev, globalReadBack, globalDestVar,
          FuncVM.nextIdent, FuncVM.setVar, VRState.codeloc,
          VRState.annotateWithVariables]
        repeat' split
        all_goals
          first
            | rfl
            | (simp [foldWriteEventsRaw_events, foldWriteEventsRaw_no_reads,
                foldWriteEventsRaw_globalRegion, VRState.freshTypeVar,
                VRState.addTypeConstraint, FuncVM.setVar, VMEvent.isRead]
               done)
            | (simp_all [foldWriteEventsRaw_events, foldWriteEventsRaw_no_reads,
                foldWriteEventsRaw_globalRegion, VRState.freshTypeVar,
                VRState.addTypeConstraint, FuncVM.setVar, VMEvent.isRead]
               done)
            | (simp [foldWriteEventsRaw_events, foldWriteEventsRaw_no_reads,
                 foldWriteEventsRaw_globalRegion, VRState.freshTypeVar,
                 VRState.addTypeConstraint, FuncVM.setVar, VMEvent.isRead]
               intro a e v hmem he
               subst he
               rfl)
    | cons p rest =>
      obtain ⟨v, off⟩ := p
      refine ⟨?_, ?_, ?_⟩ <;>
      · simp only [vrStore, vrStoreToGlobal, hev, globalReadBack, globalDestVar,
          FuncVM.nextIdent, FuncVM.setVar, VRState.codeloc,
          VRState.annotateWithVariables]
        repeat' split
        all_goals
          first
            | rfl
            | (simp [foldWriteEventsRaw_events, foldWriteEventsRaw_no_reads,
                foldWriteEventsRaw_globalRegion, VRState.freshTypeVar,
                VRState.addTypeConstraint, FuncVM.setVar, VMEvent.isRead]
               done)
            | (simp_all [foldWriteEventsRaw_events, foldWriteEventsRaw_no_reads,
                foldWriteEventsRaw_globalRegion, VRState.freshTypeVar,
                VRState.addTypeConstraint, FuncVM.setVar, VMEvent.isRead]
               done)
            | (simp [foldWriteEventsRaw_events, foldWriteEventsRaw_no_reads,
                 foldWriteEventsRaw_globalRegion, VRState.freshTypeVar,
                 VRState.addTypeConstraint, FuncVM.setVar, VMEvent.isRead]
               intro a e v hmem he
               subst he
               rfl)

end VR
